import Mathlib

/-!
Verification of the InkyPi CFB-Rankings repository (two plugins:
`cfbrankings.py` and `ndschedule.py`).

The Python code is shallowly embedded over a model of JSON values
(`JValue`).  Python semantics that the code relies on are modelled
explicitly: truthiness, `or`-coalescing, `dict.get`, `str()`, `int()`,
`str.strip() / lower() / upper()`, substring tests, and stable
descending sorts (`list.sort(key=..., reverse=True)`; a stable sort is
uniquely determined by key and input order, so an insertion sort with
the same tie behaviour is the same function).

Standard-library collaborators that the plugins call
(`datetime.fromisoformat` + timezone conversion + `strftime`, and the
HTTP session) are modelled as explicit function parameters:
`iso : String -> Option Int` is the instant parser (`none` = the
stdlib call raised), the `fmt*` parameters are the bodies of the
`try:` blocks that only do stdlib date formatting, and
`fetch : String -> Except Unit JValue` is the JSON-returning HTTP
fetcher (`.error` = transport/HTTP error raised).  Whenever the
repository's own code can raise (attribute access on a non-dict,
`.lower()`/`.strip()` on a non-string), the embedding returns
`Except.error ()`.

Notes on approximations, none of which any theorem below depends on:
`str()`/`repr()` of lists and dicts is rendered without Python's
string escaping; `.strip()`/`.lower()`/`.upper()` act on ASCII; the
`int(float(s))` path does not model exponent notation.
-/

/-- A JSON value as Python sees it (`None`, `bool`, `int`, `str`,
`list`, `dict`).  JSON floats do not occur in the fields this code
reads, so numbers are integers. -/
inductive JValue where
  | null
  | bool (b : Bool)
  | num (n : Int)
  | str (s : String)
  | arr (xs : List JValue)
  | obj (fields : List (String × JValue))

/-- A Python dict with JSON content. -/
abbrev JObj := List (String × JValue)

/-- `d.get(k)` on a dict: the first binding of `k`, else `None`. -/
def jget (o : JObj) (k : String) : JValue :=
  match o.find? (fun kv => kv.1 == k) with
  | some kv => kv.2
  | none => JValue.null

/-- Python truthiness of a JSON value. -/
def JValue.truthy : JValue → Bool
  | .null => false
  | .bool b => b
  | .num n => n != 0
  | .str s => s != ""
  | .arr xs => !xs.isEmpty
  | .obj fs => !fs.isEmpty

/-- Python `a or b`. -/
def pyOr (a b : JValue) : JValue :=
  if a.truthy then a else b

/-- `v.get(k)` where `v` is an arbitrary value: raises (`.error`)
unless `v` is a dict, like Python's `AttributeError`. -/
def jvObjGet (v : JValue) (k : String) : Except Unit JValue :=
  match v with
  | .obj o => Except.ok (jget o k)
  | _ => Except.error ()

/-- `v` as a dict, if it is one. -/
def asObj : JValue → Option JObj
  | .obj o => some o
  | _ => none

/-- Comma-join used by the container renderings below. -/
def joinComma : List String → String
  | [] => ""
  | [s] => s
  | s :: rest => s ++ ", " ++ joinComma rest

mutual

/-- Python `repr(v)`. -/
def pyRepr : JValue → String
  | .null => "None"
  | .bool b => if b then "True" else "False"
  | .num n => toString n
  | .str s => "\x27" ++ s ++ "\x27"
  | .arr xs => "[" ++ joinComma (pyReprList xs) ++ "]"
  | .obj fs => "\x7b" ++ joinComma (pyReprFields fs) ++ "\x7d"

/-- `repr` of every element of a list. -/
def pyReprList : List JValue → List String
  | [] => []
  | v :: vs => pyRepr v :: pyReprList vs

/-- `repr` of every `key: value` pair of a dict. -/
def pyReprFields : List (String × JValue) → List String
  | [] => []
  | (k, v) :: fs => ("\x27" ++ k ++ "\x27: " ++ pyRepr v) :: pyReprFields fs

end

/-- Python `str(v)`. -/
def pyStr : JValue → String
  | .null => "None"
  | .bool b => if b then "True" else "False"
  | .num n => toString n
  | .str s => s
  | v => pyRepr v

/-- Python `s.strip()` (ASCII whitespace). -/
def pyStrip (s : String) : String :=
  String.mk (((s.data.dropWhile Char.isWhitespace).reverse.dropWhile Char.isWhitespace).reverse)

/-- Python `s.lower()` (ASCII). -/
def pyLower (s : String) : String := String.mk (s.data.map Char.toLower)

/-- Python `s.upper()` (ASCII). -/
def pyUpper (s : String) : String := String.mk (s.data.map Char.toUpper)

/-- Does `t` occur at the head of `s`? -/
def leadsChars : List Char → List Char → Bool
  | [], _ => true
  | _ :: _, [] => false
  | c :: cs, d :: ds => c == d && leadsChars cs ds

/-- Does `t` occur anywhere in `s`? -/
def hasSubChars (t : List Char) : List Char → Bool
  | [] => leadsChars t []
  | c :: cs => leadsChars t (c :: cs) || hasSubChars t cs

/-- Python `t in s` (substring containment). -/
def strContains (s t : String) : Bool :=
  if t.data.isEmpty then true else hasSubChars t.data s.data

/-- Python `s.startswith(t)`. -/
def strBeginsWith (s t : String) : Bool := leadsChars t.data s.data

/-- Python `s.endswith(t)`. -/
def strFinishesWith (s t : String) : Bool := leadsChars t.data.reverse s.data.reverse

/-- Python `s.replace("Z", "+00:00")` (the only `replace` the code
performs). -/
def strReplaceZ (s : String) : String := String.mk (go s.data)
where
  go : List Char → List Char
    | [] => []
    | 'Z' :: rest => '+' :: '0' :: '0' :: ':' :: '0' :: '0' :: go rest
    | c :: rest => c :: go rest

/-- Python `s.isdigit()` (ASCII digits). -/
def isDigitStr (s : String) : Bool := !s.data.isEmpty && s.data.all Char.isDigit

/-- Nat value of a non-empty all-digit character list. -/
def digitsVal : List Char → Option Nat
  | [] => none
  | cs => if cs.all Char.isDigit then some (cs.foldl (fun a c => a * 10 + (c.toNat - 48)) 0) else none

/-- Python `int(s)` for a string: strip, optional sign, digits;
`none` models the raised `ValueError`. -/
def intOfStr (s : String) : Option Int :=
  match (pyStrip s).data with
  | '-' :: ds => (digitsVal ds).map (fun n => -(n : Int))
  | '+' :: ds => (digitsVal ds).map (fun n => (n : Int))
  | ds => (digitsVal ds).map (fun n => (n : Int))

/-- Python `int(v)` on a JSON value; `none` models the raised
`TypeError`/`ValueError`. -/
def pyIntOpt : JValue → Option Int
  | .num n => some n
  | .bool b => some (if b then 1 else 0)
  | .str s => intOfStr s
  | _ => none

/-- Python `int(float(s))` for a decimal string (sign, digits,
optional fraction; truncation toward zero).  Exponent notation is not
modelled. -/
def intOfFloatStr (s : String) : Option Int :=
  match (pyStrip s).data with
  | '-' :: ds => (mantissa ds).map (fun n => -(n : Int))
  | '+' :: ds => (mantissa ds).map (fun n => (n : Int))
  | ds => (mantissa ds).map (fun n => (n : Int))
where
  mantissa (cs : List Char) : Option Nat :=
    let ip := cs.takeWhile (fun c => c != '.')
    let rest := cs.dropWhile (fun c => c != '.')
    match rest with
    | [] => digitsVal ip
    | _ :: frac =>
        if frac.all Char.isDigit && (!ip.isEmpty || !frac.isEmpty) then
          if ip.isEmpty then some 0 else digitsVal ip
        else none

/-- Stable insert for a descending sort: `a` goes before the first
element whose key is `≤ key a`. -/
def insertDesc (key : α → Int) (a : α) : List α → List α
  | [] => [a]
  | b :: l => if key b ≤ key a then a :: b :: l else b :: insertDesc key a l

/-- Stable descending sort by an integer key; extensionally equal to
Python's `list.sort(key=..., reverse=True)` (both are the unique
stable descending sort). -/
def sortDesc (key : α → Int) : List α → List α
  | [] => []
  | a :: l => insertDesc key a (sortDesc key l)

/-- The first element of a list attaining the maximal key. -/
def firstMax (key : α → Int) : List α → Option α
  | [] => none
  | a :: l =>
      match firstMax key l with
      | none => some a
      | some m => if key m > key a then some m else some a

/-! ## `cfbrankings.py` — poll selection (`_pick_poll`) -/

/-- `norm(s) = str(s or "").strip().lower()` from `_pick_poll`. -/
def normJ (v : JValue) : String := pyLower (pyStrip (pyStr (pyOr v (JValue.str ""))))

/-- One key of `parse_date`'s loop: a truthy value is stringified,
`Z` is rewritten to `+00:00`, and the stdlib parse (`iso`) is tried;
`none` means "continue with the next key". -/
def tryParseKey (iso : String → Option Int) (p : JObj) (k : String) : Option Int :=
  let v := jget p k
  if v.truthy then iso (strReplaceZ (pyStr v)) else none

/-- First success in a list of attempts. -/
def firstSome : List (Option α) → Option α
  | [] => none
  | some a :: _ => some a
  | none :: rest => firstSome rest

/-- Date-field names probed by `parse_date` (and `_format_poll_date`). -/
def pollDateKeys : List String := ["date", "lastUpdated", "lastUpdate", "updated", "updateDate"]

/-- `parse_date(p)` of `_pick_poll`: first parsable date field, then
the `occurrence` fallback, else the epoch-0 sentinel. -/
def parseDate (iso : String → Option Int) (p : JObj) : Int :=
  match firstSome (pollDateKeys.map (tryParseKey iso p)) with
  | some t => t
  | none =>
      match jget p "occurrence" with
      | .obj oc => (firstSome (["startDate", "endDate"].map (tryParseKey iso oc))).getD 0
      | _ => 0

/-- `is_ap(p)` from `_pick_poll`. -/
def isApPoll (p : JObj) : Bool :=
  normJ (jget p "type") == "ap"
    || strContains (normJ (jget p "shortName")) "ap"
    || strContains (normJ (jget p "name")) "ap top"

/-- `is_coaches(p)` from `_pick_poll`. -/
def isCoachesPoll (p : JObj) : Bool :=
  normJ (jget p "type") == "coaches"
    || strContains (normJ (jget p "name")) "coaches"
    || strContains (normJ (jget p "name")) "afca"
    || strContains (normJ (jget p "shortName")) "coaches"

/-- `is_cfp(p)` from `_pick_poll`. -/
def isCfpPoll (p : JObj) : Bool :=
  let n := normJ (jget p "name")
  let s := normJ (jget p "shortName")
  let t := normJ (jget p "type")
  let h := normJ (jget p "headline")
  let blob := n ++ " " ++ s ++ " " ++ t ++ " " ++ h
  n == "playoff selection committee rankings"
    || strContains n "playoff selection committee"
    || (strContains blob "playoff" && strContains blob "committee")
    || strContains blob "cfp"
    || strContains blob "selection committee"

/-- The poll list location logic at the top of `_pick_poll` (and of
`_get_rank_map`): `data.get("rankings")`, descending into
`items`/`rankings` when that is a dict; `none` when no list found. -/
def pollsOf (data : JObj) : Option (List JValue) :=
  let p := jget data "rankings"
  let p := match p with
    | .obj o => pyOr (jget o "items") (jget o "rankings")
    | _ => p
  match p with
  | .arr xs => some xs
  | _ => none

/-- The classified, recency-sorted CFP list of `_pick_poll`. -/
def cfpSorted (iso : String → Option Int) (data : JObj) : List JObj :=
  sortDesc (parseDate iso) ((((pollsOf data).getD []).filterMap asObj).filter isCfpPoll)

/-- The classified, recency-sorted AP list of `_pick_poll`. -/
def apSorted (iso : String → Option Int) (data : JObj) : List JObj :=
  sortDesc (parseDate iso) ((((pollsOf data).getD []).filterMap asObj).filter isApPoll)

/-- The classified, recency-sorted Coaches list of `_pick_poll`. -/
def coachesSorted (iso : String → Option Int) (data : JObj) : List JObj :=
  sortDesc (parseDate iso) ((((pollsOf data).getD []).filterMap asObj).filter isCoachesPoll)

/-- `cfp_list[0]` when non-empty. -/
def cfpHead (iso : String → Option Int) (data : JObj) : Option JObj := (cfpSorted iso data).head?

/-- `ap_list[0]` when non-empty. -/
def apHead (iso : String → Option Int) (data : JObj) : Option JObj := (apSorted iso data).head?

/-- `coaches_list[0]` when non-empty. -/
def coachesHead (iso : String → Option Int) (data : JObj) : Option JObj :=
  (coachesSorted iso data).head?

/-- The `candidates` list of the AUTO branch: most recent poll per
classified kind, in the order CFP, AP, Coaches. -/
def autoCandidates (iso : String → Option Int) (data : JObj) : List JObj :=
  (cfpHead iso data).toList ++ (apHead iso data).toList ++ (coachesHead iso data).toList

/-- `_pick_poll(data, choice)`. -/
def pickPoll (iso : String → Option Int) (data : JObj) (choice : String) : Option JObj :=
  match pollsOf data with
  | none => none
  | some polls =>
      if choice = "cfp" then cfpHead iso data
      else if choice = "ap" then apHead iso data
      else if choice = "coaches" then coachesHead iso data
      else
        match autoCandidates iso data with
        | [] =>
            match polls with
            | [] => none
            | p :: _ => asObj p
        | c :: cs => (sortDesc (parseDate iso) (c :: cs)).head?

/-- The two error messages raised by `generate_image` when
`_pick_poll` returns `None`. -/
def cfpMissingMsg : String :=
  "CFP poll not found in ESPN rankings response. Outside the committee ranking window, ESPN may omit it."

/-- The generic selection-failure message of `generate_image`. -/
def pollMissingMsg : String := "Selected poll not found in ESPN response."

/-- The selection step of `generate_image`: the picked poll, or the
raised `RuntimeError` (CFP has a dedicated message). -/
def selectPoll (iso : String → Option Int) (data : JObj) (choice : String) :
    Except String JObj :=
  match pickPoll iso data choice with
  | some p => Except.ok p
  | none =>
      Except.error (if choice = "cfp" then cfpMissingMsg else pollMissingMsg)

/-! ## `cfbrankings.py` — rank extraction and row building -/

/-- `_extract_ranks(poll)`. -/
def extractRanks (poll : JObj) : List JObj :=
  let ranks := jget poll "ranks"
  let ranks := match ranks with
    | .obj o => pyOr (jget o "items") (pyOr (jget o "entries") (jget o "ranks"))
    | _ => ranks
  let ranks := match ranks with
    | .arr xs => JValue.arr xs
    | _ => pyOr (jget poll "entries") (JValue.arr [])
  match ranks with
  | .arr xs => xs.filterMap asObj
  | _ => []

/-- `_to_int` local to `_build_rows`: strings must be all digits
(after strip); ints/bools convert; everything else is `None`. -/
def toIntLoose : JValue → Option Int
  | .null => none
  | .str s => if !isDigitStr (pyStrip s) then none else intOfStr s
  | .num n => some n
  | .bool b => some (if b then 1 else 0)
  | _ => none

/-- `href` field of a logo entry (`None` when the entry is not a
dict). -/
def logoItemHref (it : JValue) : JValue :=
  match it with
  | .obj o => jget o "href"
  | _ => JValue.null

/-- A logo entry the loop does not `continue` past: a dict with a
truthy `href`. -/
def isHrefItem (it : JValue) : Bool :=
  match it with
  | .obj o => (jget o "href").truthy
  | _ => false

/-- Does `str(u).lower()` end in `.svg`? -/
def isSvgHref (u : JValue) : Bool := strFinishesWith (pyLower (pyStr u)) ".svg"

/-- A logo entry with a `rel` list containing `"default"` and a
truthy `href`. -/
def isDefaultItem (it : JValue) : Bool :=
  match it with
  | .obj o =>
      (match jget o "rel" with
       | .arr rs => rs.any (fun e => match e with | .str s => s == "default" | _ => false)
       | _ => false)
        && (jget o "href").truthy
  | _ => false

/-- `area = int(w) * int(hgt)` with the falsy-to-0 defaults and the
`except: area = 0` guard. -/
def areaOf (it : JValue) : Int :=
  match it with
  | .obj o =>
      match pyIntOpt (pyOr (jget o "width") (JValue.num 0)),
            pyIntOpt (pyOr (jget o "height") (JValue.num 0)) with
      | some a, some b => a * b
      | _, _ => 0
  | _ => 0

/-- The first loop of the logo block of `_build_rows`: accumulates
the last SVG href seen and the best `(area, href)` pair under
strictly-greater updates. -/
def logoScan : List JValue → Option JValue → Int → Option JValue →
    Option JValue × Int × Option JValue
  | [], svg, bestA, bestU => (svg, bestA, bestU)
  | it :: its, svg, bestA, bestU =>
      if isHrefItem it then
        let u := logoItemHref it
        let svg' := if isSvgHref u then some u else svg
        let a := areaOf it
        if a > bestA then logoScan its svg' a (some u) else logoScan its svg' bestA bestU
      else logoScan its svg bestA bestU

/-- The whole logo block of `_build_rows` for one team dict. -/
def logoOf (team : JObj) : JValue :=
  match jget team "logos" with
  | .arr items =>
      if items.isEmpty then JValue.str ""
      else
        match (logoScan items none 0 none).1 with
        | some u => u
        | none =>
            match items.find? isDefaultItem with
            | some it => logoItemHref it
            | none =>
                match (logoScan items none 0 none).2.2 with
                | some u => u
                | none =>
                    match items.find? isHrefItem with
                    | some it => logoItemHref it
                    | none => JValue.str ""
  | _ => JValue.str ""

/-- `team = entry.get("team") or entry.get("school") or {}`, coerced
to a dict. -/
def teamOf (entry : JObj) : JObj :=
  (asObj (pyOr (jget entry "team") (jget entry "school"))).getD []

/-- The display-name fallback chain for `school`. -/
def schoolOf (team : JObj) : JValue :=
  pyOr (jget team "shortDisplayName")
    (pyOr (jget team "location")
      (pyOr (jget team "displayName")
        (pyOr (jget team "abbreviation")
          (pyOr (jget team "name") (JValue.str "Unknown")))))

/-- `nickname = team.get("name") or team.get("nickname") or ""`. -/
def nicknameRawOf (team : JObj) : JValue :=
  pyOr (jget team "name") (pyOr (jget team "nickname") (JValue.str ""))

/-- The nickname-suppression step: a truthy nickname is kept unless
its lowercase form occurs in `str(school).lower()`; a truthy
non-string raises (`.lower()` on a non-`str`). -/
def nickOutOf (entry : JObj) : Except Unit JValue :=
  let team := teamOf entry
  let nickname := nicknameRawOf team
  if nickname.truthy then
    match nickname with
    | .str s =>
        Except.ok (if strContains (pyLower (pyStr (schoolOf team))) (pyLower s)
          then JValue.str "" else JValue.str s)
    | _ => Except.error ()
  else Except.ok (JValue.str "")

/-- `rk = entry.get("current") or ... or entry.get("ranking")`. -/
def rankRawOf (entry : JObj) : JValue :=
  pyOr (jget entry "current")
    (pyOr (jget entry "rank") (pyOr (jget entry "position") (jget entry "ranking")))

/-- The movement pair `(move_dir, move_delta)`. -/
def moveOf (entry : JObj) : String × Int :=
  match toIntLoose (rankRawOf entry), toIntLoose (jget entry "previous") with
  | some c, some p =>
      if c < p then ("up", p - c) else if c > p then ("down", c - p) else ("", 0)
  | _, _ => ("", 0)

/-- `rec = entry.get("recordSummary") or entry.get("record") or ""`. -/
def recOf (entry : JObj) : JValue :=
  pyOr (jget entry "recordSummary") (pyOr (jget entry "record") (JValue.str ""))

/-- One output row of the rankings template. -/
structure CfbRow where
  rank : JValue
  school : JValue
  nickname : JValue
  logo : JValue
  record : JValue
  moveDir : String
  moveDelta : Int

/-- One iteration of the `_build_rows` loop of `cfbrankings.py`;
`.error` models the uncaught exception of the nickname step. -/
def rowOfEntry (showRecord : Bool) (entry : JObj) : Except Unit CfbRow :=
  match nickOutOf entry with
  | Except.error e => Except.error e
  | Except.ok nk =>
      Except.ok
        ⟨if rankRawOf entry matches JValue.null then JValue.str "--" else rankRawOf entry,
          schoolOf (teamOf entry), nk, logoOf (teamOf entry),
          if showRecord then recOf entry else JValue.str "",
          (moveOf entry).1, (moveOf entry).2⟩

/-- Sequential mapping in `Except`, aborting at the first raised
exception, like the Python loop. -/
def mapExcept (f : α → Except Unit β) : List α → Except Unit (List β)
  | [] => Except.ok []
  | x :: l =>
      match f x with
      | Except.error e => Except.error e
      | Except.ok y =>
          match mapExcept f l with
          | Except.error e => Except.error e
          | Except.ok ys => Except.ok (y :: ys)

/-- `_build_rows(ranks, top_n, show_record)` of `cfbrankings.py`. -/
def buildRows (showRecord : Bool) (topN : Nat) (ranks : List JObj) :
    Except Unit (List CfbRow) :=
  mapExcept (rowOfEntry showRecord) (ranks.take topN)

/-! ## `cfbrankings.py` — poll-date formatting and the TTL cache -/

/-- The `date_str` selection loop of `_format_poll_date`: the first
truthy date field, stringified. -/
def pollDateStrOf (poll : JObj) : Option String :=
  firstSome (pollDateKeys.map (fun k =>
    let v := jget poll k
    if v.truthy then some (pyStr v) else none))

/-- `_format_poll_date(poll)`, with the body of its `try:` block
(stdlib parse + timezone conversion + `strftime`) abstracted as
`fmt`; `fmt ds = none` models a raised exception. -/
def formatPollDate (fmt : String → Option String) (poll : JObj) : String :=
  match pollDateStrOf poll with
  | none => ""
  | some ds => (fmt ds).getD ds

/-- The class-level cache of `CfbRankings`: a timestamp and an
optional payload. -/
structure CfbCache where
  ts : Int
  data : Option JValue

/-- `_get_rankings_cached(ttl)` as a state transition; `net` is the
payload a network GET would produce and the `Bool` records whether
that GET happened. -/
def getRankingsCached (ttl now : Int) (c : CfbCache) (net : JValue) :
    JValue × CfbCache × Bool :=
  if ttl > 0 ∧ c.data.isSome ∧ now - c.ts < ttl then
    (c.data.getD JValue.null, c, false)
  else
    (net, if ttl > 0 then ⟨now, some net⟩ else c, true)

/-! ## `ndschedule.py` — utilities -/

mutual

/-- Structural depth of a JSON value (used as fuel below; recursion
in `_safe_int` only ever descends into subvalues, so this fuel is
never exhausted). -/
def jdepth : JValue → Nat
  | .null => 1
  | .bool _ => 1
  | .num _ => 1
  | .str _ => 1
  | .arr xs => 1 + jdepthList xs
  | .obj fs => 1 + jdepthFields fs

/-- Depth helper over list elements. -/
def jdepthList : List JValue → Nat
  | [] => 0
  | v :: vs => jdepth v + jdepthList vs

/-- Depth helper over dict fields. -/
def jdepthFields : List (String × JValue) → Nat
  | [] => 0
  | (_, v) :: fs => jdepth v + jdepthFields fs

end

/-- The string branch of `_safe_int`: digits (optionally negative)
via `int(s)`, anything else via `int(float(s))`. -/
def safeIntStr (s : String) : Option Int :=
  let t := pyStrip s
  if t == "" then none
  else if isDigitStr t then intOfStr t
  else
    match t.data with
    | '-' :: ds => if isDigitStr (String.mk ds) then intOfStr t else intOfFloatStr t
    | _ => intOfFloatStr t

/-- Fuel-indexed body of `_safe_int`; the dict branch recurses into
the first of `value`/`displayValue`/`score` that is not `None`, the
list branch into the head. -/
def safeIntF : Nat → JValue → Option Int
  | _, .null => none
  | _, .num n => some n
  | _, .bool b => some (if b then 1 else 0)
  | _, .str s => safeIntStr s
  | 0, _ => none
  | f + 1, .obj fs =>
      match ["value", "displayValue", "score"].find?
          (fun k => !(jget fs k matches JValue.null)) with
      | some k => safeIntF f (jget fs k)
      | none => none
  | f + 1, .arr (x :: _) => safeIntF f x
  | _, .arr [] => none

/-- `_safe_int(v)` of `ndschedule.py`. -/
def safeInt (v : JValue) : Option Int := safeIntF (jdepth v) v

/-- `_parse_iso(iso_str)`: empty is `None`, otherwise the stdlib
parse of the `Z`-rewritten string. -/
def parseIso (iso : String → Option Int) (s : String) : Option Int :=
  if s == "" then none else iso (strReplaceZ s)

/-- The texts `_is_finalish` accepts on the status-text fields. -/
def finalishText (val : String) : Bool :=
  strBeginsWith (pyUpper val) "FINAL" || strBeginsWith (pyUpper val) "STATUS_FINAL"

/-- `_is_finalish(comp)`; `.error` models the uncaught
`AttributeError` when `comp["status"]` is a truthy non-dict. -/
def isFinalish (comp : JValue) : Except Unit Bool :=
  match comp with
  | .obj co =>
      match jvObjGet (pyOr (jget co "status") (JValue.obj [])) "type" with
      | Except.error e => Except.error e
      | Except.ok stv =>
          let lastLine := pyLower (pyStr (pyOr (jget co "status") (JValue.str ""))) == "final"
            || pyLower (pyStr (pyOr (jget co "status") (JValue.str ""))) == "post"
          match pyOr stv (JValue.obj []) with
          | .obj sto =>
              if jget sto "completed" matches JValue.bool true then Except.ok true
              else if pyLower (pyStr (pyOr (jget sto "state") (JValue.str ""))) == "post" then
                Except.ok true
              else if ["name", "detail", "shortDetail", "description"].any
                  (fun k => finalishText (pyStr (pyOr (jget sto k) (JValue.str "")))) then
                Except.ok true
              else Except.ok lastLine
          | _ => Except.ok lastLine
  | _ => Except.ok false

/-- `_choose_school(team, meta)`: the first candidate that is a
non-blank string, stripped; else `"Unknown"`. -/
def chooseSchool (team meta : JObj) : String :=
  let cands := [jget team "shortDisplayName", jget team "location", jget team "displayName",
    jget team "abbreviation", jget meta "shortDisplayName", jget meta "location",
    jget meta "displayName", jget meta "abbreviation", jget team "name", jget meta "name"]
  match cands.find? (fun c => match c with | .str s => pyStrip s != "" | _ => false) with
  | some (.str s) => pyStrip s
  | _ => "Unknown"

/-- `_nickname_v22(team, school)`; `.error` models `.strip()` on a
truthy non-string name. -/
def nicknameV22 (team : JObj) (school : String) : Except Unit String :=
  match pyOr (jget team "name") (pyOr (jget team "nickname") (JValue.str "")) with
  | .str s =>
      let n := pyStrip s
      Except.ok (if n != "" && !strContains (pyLower school) (pyLower n) then n else "")
  | _ => Except.error ()

/-! ## `ndschedule.py` — HTTP cache and fetch helpers -/

/-- Insert-or-overwrite on an association list, keeping the position
of an existing key like a Python dict does. -/
def assocInsert (m : List (String × α)) (k : String) (v : α) : List (String × α) :=
  if m.any (fun kv => kv.1 == k) then
    m.map (fun kv => if kv.1 == k then (k, v) else kv)
  else m ++ [(k, v)]

/-- First binding of a key in an association list (`dict.get`). -/
def lookupStr (m : List (String × α)) (k : String) : Option α :=
  (m.find? (fun kv => kv.1 == k)).map (fun kv => kv.2)

/-- The class-level cache of `NdSchedule`: per-URL timestamps and
payloads. -/
structure NdCache where
  ts : List (String × Int)
  data : List (String × JValue)

/-- `_fetch_json_cached(url, ttl)` as a state transition; `net` is
the payload a network GET would produce and the `Bool` records
whether that GET happened. -/
def fetchJsonCached (url : String) (ttl now : Int) (c : NdCache) (net : JValue) :
    JValue × NdCache × Bool :=
  if ttl > 0 ∧ (lookupStr c.data url).isSome
      ∧ now - (lookupStr c.ts url).getD 0 < ttl then
    ((lookupStr c.data url).getD JValue.null, c, false)
  else
    (net,
      if ttl > 0 then ⟨assocInsert c.ts url now, assocInsert c.data url net⟩ else c,
      true)

/-- `TEAM_DETAIL_URL_BASE` of `ndschedule.py`. -/
def teamDetailUrlBase : String :=
  "https://site.api.espn.com/apis/site/v2/sports/football/college-football/teams/"

/-- `RANKINGS_URL` of `ndschedule.py`. -/
def rankingsUrl : String :=
  "https://site.api.espn.com/apis/site/v2/sports/football/college-football/rankings"

/-- `ND_TEAM_ID`. -/
def ndTeamId : Int := 87

/-- The candidate URL list of `_fetch_schedule_for_year`. -/
def scheduleUrls (teamId year : Int) : List String :=
  let base := teamDetailUrlBase ++ toString teamId ++ "/schedule"
  [base ++ "?season=" ++ toString year,
   base ++ "?year=" ++ toString year,
   base ++ "?season=" ++ toString year ++ "&seasontype=2",
   base ++ "?season=" ++ toString year ++ "&seasontype=3",
   base ++ "?year=" ++ toString year ++ "&seasontype=2",
   base ++ "?year=" ++ toString year ++ "&seasontype=3",
   base]

/-- The candidate loop of `_fetch_schedule_for_year`: each URL is
tried under `try/except`; a response whose `events` is a non-empty
list is returned at once, otherwise the last response that did not
raise is remembered (even a non-dict one, whose `.get` raised after
the assignment to `last`). -/
def fetchScheduleLoop (fetch : String → Except Unit JValue) :
    List String → Option JValue → JValue
  | [], last =>
      match last with
      | some v => if v.truthy then v else JValue.obj [("events", JValue.arr [])]
      | none => JValue.obj [("events", JValue.arr [])]
  | url :: rest, last =>
      match fetch url with
      | Except.error _ => fetchScheduleLoop fetch rest last
      | Except.ok data =>
          match data with
          | .obj o =>
              match jget o "events" with
              | .arr evs =>
                  if !evs.isEmpty then data else fetchScheduleLoop fetch rest (some data)
              | _ => fetchScheduleLoop fetch rest (some data)
          | _ => fetchScheduleLoop fetch rest (some data)

/-- `_fetch_schedule_for_year(team_id, year, ttl)` over an abstract
fetcher. -/
def fetchScheduleForYear (fetch : String → Except Unit JValue) (teamId year : Int) : JValue :=
  fetchScheduleLoop fetch (scheduleUrls teamId year) none

/-- `_get_team_meta(team_id, ttl)`: always total, degrading to the
empty dict on any exception. -/
def getTeamMeta (fetch : String → Except Unit JValue) (teamId : Int) : JObj :=
  match fetch (teamDetailUrlBase ++ toString teamId) with
  | Except.error _ => []
  | Except.ok data =>
      match data with
      | .obj o =>
          match jget o "team" with
          | .obj t => t
          | _ => o
      | _ => []

/-! ## `ndschedule.py` — opponent pregame record -/

/-- The competitor scan shared by `_opponent_pregame_record` and
`_build_rows`: the last dict competitor whose `team["id"]`
stringifies to `tid` wins the first slot, the last other dict
competitor the second; a truthy non-dict `team` raises. -/
def findSides (tid : String) :
    List JValue → Option JObj × Option JObj → Except Unit (Option JObj × Option JObj)
  | [], acc => Except.ok acc
  | c :: cs, acc =>
      match c with
      | .obj cobj =>
          match jvObjGet (pyOr (jget cobj "team") (JValue.obj [])) "id" with
          | Except.error e => Except.error e
          | Except.ok idv =>
              if pyStr idv == tid then findSides tid cs (some cobj, acc.2)
              else findSides tid cs (acc.1, some cobj)
      | _ => findSides tid cs acc

/-- Truthiness of the `my_side`/`other_side` variables (`None` or an
empty dict are falsy). -/
def sideTruthy : Option JObj → Bool
  | none => false
  | some o => !o.isEmpty

/-- `comp = comps[0] if isinstance(comps, list) and comps else ev`. -/
def compOf (eo : JObj) : JValue :=
  match jget eo "competitions" with
  | .arr (c :: _) => c
  | _ => JValue.obj eo

/-- Win/loss/tie bumps on a `(wins, losses, ties)` accumulator. -/
def bumpWin (acc : Int × Int × Int) : Int × Int × Int := (acc.1 + 1, acc.2.1, acc.2.2)

/-- Loss bump. -/
def bumpLoss (acc : Int × Int × Int) : Int × Int × Int := (acc.1, acc.2.1 + 1, acc.2.2)

/-- Tie bump. -/
def bumpTie (acc : Int × Int × Int) : Int × Int × Int := (acc.1, acc.2.1, acc.2.2 + 1)

/-- The outcome classification shared below. -/
inductive GameTally where
  | win
  | loss
  | tie
  | skip

/-- Apply one outcome to the `(wins, losses, ties)` accumulator. -/
def applyTally (acc : Int × Int × Int) : GameTally → Int × Int × Int
  | .win => bumpWin acc
  | .loss => bumpLoss acc
  | .tie => bumpTie acc
  | .skip => acc

/-- The scoring tail of the `_opponent_pregame_record` loop, in the
source's order: the falsy-side guard, then the `my_score is None or
other_score is None` branch (winner flag or nothing), then the branch
with both scores (winner flag first, else score comparison). -/
def sideTallyCode (my? oth? : Option JObj) : GameTally :=
  if !(sideTruthy my? && sideTruthy oth?) then GameTally.skip
  else
    let my := my?.getD []
    let oth := oth?.getD []
    match safeInt (jget my "score"), safeInt (jget oth "score") with
    | some ms, some os =>
        match jget my "winner" with
        | .bool b => if b then GameTally.win else GameTally.loss
        | _ =>
            if ms > os then GameTally.win
            else if ms < os then GameTally.loss
            else GameTally.tie
    | _, _ =>
        match jget my "winner" with
        | .bool b => if b then GameTally.win else GameTally.loss
        | _ => GameTally.skip

/-- The competition part of one `_opponent_pregame_record` loop
iteration (everything after the date filter). -/
def countEventComp (oppId : Int) (acc : Int × Int × Int) (comp : JValue) :
    Except Unit (Int × Int × Int) :=
  match comp with
  | .obj co =>
      match pyOr (jget co "competitors") (JValue.arr []) with
      | .arr cs =>
          if cs.length < 2 then Except.ok acc
          else
            match findSides (toString oppId) cs (none, none) with
            | Except.error e => Except.error e
            | Except.ok pr => Except.ok (applyTally acc (sideTallyCode pr.1 pr.2))
      | _ => Except.ok acc
  | _ => Except.ok acc

/-- One iteration of the event loop of `_opponent_pregame_record`. -/
def countEvent (iso : String → Option Int) (oppId : Int) (g : Int)
    (acc : Int × Int × Int) (ev : JValue) : Except Unit (Int × Int × Int) :=
  match ev with
  | .obj eo =>
      match parseIso iso (pyStr (pyOr (jget eo "date") (JValue.str ""))) with
      | none => Except.ok acc
      | some d =>
          if d ≥ g then Except.ok acc
          else countEventComp oppId acc (compOf eo)
  | _ => Except.ok acc

/-- The whole event loop of `_opponent_pregame_record`. -/
def countEvents (iso : String → Option Int) (oppId : Int) (g : Int) :
    List JValue → Int × Int × Int → Except Unit (Int × Int × Int)
  | [], acc => Except.ok acc
  | ev :: evs, acc =>
      match countEvent iso oppId g acc ev with
      | Except.error e => Except.error e
      | Except.ok acc' => countEvents iso oppId g evs acc'

/-- `f"{wins}-{losses}-{ties}" if ties else f"{wins}-{losses}"`. -/
def formatRecord (acc : Int × Int × Int) : String :=
  if acc.2.2 ≠ 0 then s!"{acc.1}-{acc.2.1}-{acc.2.2}"
  else s!"{acc.1}-{acc.2.1}"

/-- `_opponent_pregame_record(opp_team_id, season_year, game_dt_utc,
ttl)`; the game instant is `Option Int` because `_parse_iso` may have
returned `None`. -/
def oppPregameRecord (iso : String → Option Int) (fetch : String → Except Unit JValue)
    (oppId : Int) (year : Int) (gameDt : Option Int) : Except Unit String :=
  if oppId == 0 then Except.ok ""
  else
    match gameDt with
    | none => Except.ok ""
    | some g =>
        match jvObjGet (fetchScheduleForYear fetch oppId year) "events" with
        | Except.error e => Except.error e
        | Except.ok eventsV =>
            match pyOr eventsV (JValue.arr []) with
            | .arr evs =>
                match countEvents iso oppId g evs (0, 0, 0) with
                | Except.error e => Except.error e
                | Except.ok acc => Except.ok (formatRecord acc)
            | _ => Except.ok ""

/-! ## `ndschedule.py` — rank map -/

/-- `is_cfp(p)` from `_get_rank_map` (narrower than the rankings
plugin's classifier). -/
def isCfpNd (p : JObj) : Bool :=
  strContains (normJ (jget p "name")) "playoff selection committee"
    || strContains (normJ (jget p "shortName")) "cfp"

/-- `poll_iso(p)` from `_get_rank_map`: the first truthy date field,
stringified; `""` when none. -/
def pollIso (p : JObj) : String :=
  (firstSome (pollDateKeys.map (fun k =>
    if (jget p k).truthy then some (pyStr (jget p k)) else none))).getD ""

/-- `poll_epoch(p)` from `_get_rank_map`: unlike the rankings
plugin's `parse_date`, only the first truthy field is tried. -/
def pollEpoch (iso : String → Option Int) (p : JObj) : Int :=
  if pollIso p == "" then 0 else (iso (strReplaceZ (pollIso p))).getD 0

/-- `_format_iso_datetime(iso_str)` with the stdlib `try:` body
abstracted as `fmt`; a parse failure yields the raw string. -/
def formatIsoDatetime (fmt : String → Option String) (s : String) : String :=
  if s == "" then "" else (fmt s).getD s

/-- One iteration of the `rank_map` construction loop. -/
def rankMapStep (m : List (String × Int)) (r : JObj) : Except Unit (List (String × Int)) :=
  let rk := pyOr (jget r "current") (pyOr (jget r "rank") (jget r "position"))
  match jvObjGet (pyOr (jget r "team") (JValue.obj [])) "id" with
  | Except.error e => Except.error e
  | Except.ok tid =>
      if tid matches JValue.null then Except.ok m
      else if rk matches JValue.null then Except.ok m
      else
        match pyIntOpt rk with
        | some n => Except.ok (assocInsert m (pyStr tid) n)
        | none => Except.ok m

/-- The `rank_map` construction loop over all rank entries. -/
def rankMapLoop : List JObj → List (String × Int) → Except Unit (List (String × Int))
  | [], m => Except.ok m
  | r :: rs, m =>
      match rankMapStep m r with
      | Except.error e => Except.error e
      | Except.ok m' => rankMapLoop rs m'

/-- The poll selected by `_get_rank_map`: the most recent CFP poll,
else the most recent AP poll (`None` otherwise). -/
def rankMapPoll (iso : String → Option Int) (ps : List JValue) : Option JObj :=
  match (sortDesc (pollEpoch iso) ((ps.filterMap asObj).filter isCfpNd)).head? with
  | some p => some p
  | none => (sortDesc (pollEpoch iso) ((ps.filterMap asObj).filter isApPoll)).head?

/-- `_get_rank_map(ttl)` over abstract collaborators; returns
`(rank_map, label, updated)`. -/
def getRankMap (iso : String → Option Int) (fmt : String → Option String)
    (fetch : String → Except Unit JValue) :
    Except Unit (List (String × Int) × String × String) :=
  match fetch rankingsUrl with
  | Except.error e => Except.error e
  | Except.ok data =>
      match data with
      | .obj dataO =>
          match (match jget dataO "rankings" with
                 | .obj o => pyOr (jget o "items") (jget o "rankings")
                 | v => v) with
          | .arr ps =>
              match rankMapPoll iso ps with
              | none => Except.ok ([], "", "")
              | some poll =>
                  if poll.isEmpty then Except.ok ([], "", "")
                  else
                    match pyOr (jget poll "shortName") (pyOr (jget poll "name") (JValue.str "")) with
                    | .str s =>
                        match rankMapLoop (extractRanks poll) [] with
                        | Except.error e => Except.error e
                        | Except.ok m =>
                            Except.ok
                              (m.filter (fun kv => 1 ≤ kv.2 && kv.2 ≤ 25), pyStrip s,
                                formatIsoDatetime fmt (pollIso poll))
                    | _ => Except.error ()
          | _ => Except.ok ([], "", "")
      | _ => Except.error ()

/-! ## `ndschedule.py` — date display and row building -/

/-- `_format_game_datetime(iso_str, show_time)` with the stdlib
`try:` body abstracted as `fmt`; an empty input renders `"TBD"`, a
raised parse renders the first ten characters of the raw string. -/
def formatGameDatetime (fmt : String → Bool → Option String) (s : String)
    (showTime : Bool) : String :=
  if s == "" then "TBD" else
    match fmt s showTime with
    | some r => r
    | none => String.mk (s.data.take 10)

/-- The logo block of `ndschedule._build_rows` (first href in the
`logos` list, else `str(team.get("logo") or "")`). -/
def ndLogoOf (team : JObj) : JValue :=
  let l1 := match jget team "logos" with
    | .arr items =>
        match items.find? isHrefItem with
        | some it => logoItemHref it
        | none => JValue.str ""
    | _ => JValue.str ""
  if l1.truthy then l1 else JValue.str (pyStr (pyOr (jget team "logo") (JValue.str "")))

/-- One output row of the schedule template. -/
structure NdRow where
  date : String
  site : String
  oppRank : Option Int
  logo : JValue
  oppSchool : String
  oppNickname : String
  oppRecord : String
  result : String
  resultClass : String

/-- `rk = rank_map.get(opp_id) if show_rank else None`. -/
def oppRankOf (rankMap : List (String × Int)) (showRank : Bool) (oppId : String) :
    Option Int :=
  if showRank then lookupStr rankMap oppId else none

/-- The result/result-class block of `ndschedule._build_rows`. -/
def resultOf (ndScore oppScore : Option Int) (finalish : Bool) (hasWinnerFlag : Bool) :
    String × String :=
  match ndScore, oppScore with
  | some ns, some os =>
      if finalish || hasWinnerFlag then
        if ns > os then (s!"W {ns}-{os}", "win")
        else if ns < os then (s!"L {ns}-{os}", "lose")
        else (s!"T {ns}-{os}", "tie")
      else ("", "")
  | _, _ => ("", "")

/-- One iteration of the event loop of `ndschedule._build_rows`;
`Except.ok none` is the loop's `continue`. -/
def rowOfEventNd (iso : String → Option Int) (fmtGame : String → Bool → Option String)
    (fetch : String → Except Unit JValue) (rankMap : List (String × Int))
    (showRank : Bool) (seasonYear : Int) (showTime : Bool) (hideLogo : Bool)
    (ev : JValue) : Except Unit (Option NdRow) :=
  match ev with
  | .obj eo =>
      let isoDate := pyStr (pyOr (jget eo "date") (JValue.str ""))
      let gameDt := parseIso iso isoDate
      let comp := compOf eo
      let dateDisp := formatGameDatetime fmtGame isoDate showTime
      let competitors := match comp with
        | .obj co =>
            match pyOr (jget co "competitors") (JValue.arr []) with
            | .arr cs => cs
            | _ => []
        | _ => []
      match findSides (toString ndTeamId) competitors (none, none) with
      | Except.error e => Except.error e
      | Except.ok (nd?, opp?) =>
          if !(sideTruthy nd? && sideTruthy opp?) then Except.ok none
          else
            let ndSide := nd?.getD []
            let oppSide := opp?.getD []
            match jvObjGet (pyOr (jget oppSide "team") (JValue.obj [])) "id" with
            | Except.error e => Except.error e
            | Except.ok oppIdV =>
                let oppTeam := (asObj (pyOr (jget oppSide "team") (JValue.obj []))).getD []
                let oppId := pyStr (pyOr oppIdV (JValue.str ""))
                let oppMeta :=
                  if isDigitStr oppId then getTeamMeta fetch ((intOfStr oppId).getD 0) else []
                let school := chooseSchool oppTeam oppMeta
                match nicknameV22 (if oppMeta.isEmpty then oppTeam else oppMeta) school with
                | Except.error e => Except.error e
                | Except.ok nickname =>
                    let logo := if hideLogo then JValue.str "" else ndLogoOf oppTeam
                    let rk := oppRankOf rankMap showRank oppId
                    match (if isDigitStr oppId ∧ gameDt.isSome then
                        oppPregameRecord iso fetch ((intOfStr oppId).getD 0) seasonYear gameDt
                      else Except.ok "") with
                    | Except.error e => Except.error e
                    | Except.ok oppRecord =>
                        let ha := pyLower (pyStr (pyOr (jget ndSide "homeAway") (JValue.str "")))
                        let neutral := match comp with
                          | .obj co => (jget co "neutralSite").truthy
                          | _ => false
                        let site := if neutral then "Neutral"
                          else if ha == "home" then "Home"
                          else if ha == "away" then "Away"
                          else ""
                        let ndScore := safeInt (jget ndSide "score")
                        let oppScore := safeInt (jget oppSide "score")
                        let hasWinnerFlag :=
                          (jget ndSide "winner" matches JValue.bool _)
                            || (jget oppSide "winner" matches JValue.bool _)
                        match (match ndScore, oppScore with
                          | some _, some _ => isFinalish comp
                          | _, _ => Except.ok false) with
                        | Except.error e => Except.error e
                        | Except.ok finalish =>
                            let rr := resultOf ndScore oppScore finalish hasWinnerFlag
                            Except.ok (some
                              ⟨dateDisp, site, rk, logo, school, nickname, oppRecord,
                                rr.1, rr.2⟩)
  | _ => Except.ok none

/-- The whole event loop of `ndschedule._build_rows`. -/
def rowsOfEvents (iso : String → Option Int) (fmtGame : String → Bool → Option String)
    (fetch : String → Except Unit JValue) (rankMap : List (String × Int))
    (showRank : Bool) (seasonYear : Int) (showTime : Bool) (hideLogo : Bool) :
    List JValue → Except Unit (List NdRow)
  | [] => Except.ok []
  | ev :: evs =>
      match rowOfEventNd iso fmtGame fetch rankMap showRank seasonYear showTime hideLogo ev with
      | Except.error e => Except.error e
      | Except.ok r =>
          match rowsOfEvents iso fmtGame fetch rankMap showRank seasonYear showTime hideLogo evs with
          | Except.error e => Except.error e
          | Except.ok rows =>
              Except.ok (match r with | some row => row :: rows | none => rows)

/-- `ndschedule._build_rows(sched, rank_map, show_rank, season_year,
ttl, show_time, hide_logo)`. -/
def buildRowsNd (iso : String → Option Int) (fmtGame : String → Bool → Option String)
    (fetch : String → Except Unit JValue) (sched : JObj) (rankMap : List (String × Int))
    (showRank : Bool) (seasonYear : Int) (showTime : Bool) (hideLogo : Bool) :
    Except Unit (List NdRow) :=
  let events := match pyOr (jget sched "events") (JValue.arr []) with
    | .arr evs => evs
    | _ => []
  rowsOfEvents iso fmtGame fetch rankMap showRank seasonYear showTime hideLogo events

/-! ## Declarative companions used to state the corrected claims -/

/-- A logo entry that enters the SVG slot: a dict with a truthy
`href` whose `str(...).lower()` ends in `.svg`. -/
def isSvgItem (it : JValue) : Bool := isHrefItem it && isSvgHref (logoItemHref it)

/-- Declarative SVG choice: the href of the last SVG entry. -/
def lastSvgHref : List JValue → Option JValue
  | [] => none
  | it :: its =>
      match lastSvgHref its with
      | some u => some u
      | none => if isSvgItem it then some (logoItemHref it) else none

/-- The maximal `width*height` product over the non-skipped entries
(0 when there is none or all products are `≤ 0`). -/
def maxAreaVal : List JValue → Int
  | [] => 0
  | it :: its =>
      if isHrefItem it then max (areaOf it) (maxAreaVal its) else maxAreaVal its

/-- The href of the first non-skipped entry attaining the maximal
area. -/
def firstMaxAreaHref (items : List JValue) : Option JValue :=
  ((items.filter isHrefItem).find? (fun it => areaOf it == maxAreaVal items)).map logoItemHref

/-- Declarative logo resolution as the code actually behaves: last
SVG href first; else the first `rel`-default entry's href; else the
href of the first entry attaining a strictly positive maximal
width*height product; else the first entry with any URL; else empty. -/
def logoSpec (team : JObj) : JValue :=
  match jget team "logos" with
  | .arr items =>
      match lastSvgHref items with
      | some u => u
      | none =>
          match items.find? isDefaultItem with
          | some it => logoItemHref it
          | none =>
              if maxAreaVal items > 0 then (firstMaxAreaHref items).getD (JValue.str "")
              else
                match items.find? isHrefItem with
                | some it => logoItemHref it
                | none => JValue.str ""
  | _ => JValue.str ""

/-- Pure side scan (the event's teams being well-formed, nothing can
raise). -/
def findSidesPure (tid : String) :
    List JValue → Option JObj × Option JObj → Option JObj × Option JObj
  | [], acc => acc
  | c :: cs, acc =>
      match c with
      | .obj cobj =>
          match pyOr (jget cobj "team") (JValue.obj []) with
          | .obj tobj =>
              if pyStr (jget tobj "id") == tid then findSidesPure tid cs (some cobj, acc.2)
              else findSidesPure tid cs (acc.1, some cobj)
          | _ => findSidesPure tid cs acc
      | _ => findSidesPure tid cs acc

/-- Declarative per-game outcome in the terms of the corrected
claim: a boolean winner flag decides win/loss whenever present (even
when both scores are available); otherwise both scores must parse and
are compared (equality is a tie); otherwise the game is skipped. -/
def sideTallySpec (my? oth? : Option JObj) : GameTally :=
  if !(sideTruthy my? && sideTruthy oth?) then GameTally.skip
  else
    let my := my?.getD []
    match jget my "winner" with
    | .bool b => if b then GameTally.win else GameTally.loss
    | _ =>
        match safeInt (jget my "score"), safeInt (jget (oth?.getD []) "score") with
        | some ms, some os =>
            if ms > os then GameTally.win
            else if ms < os then GameTally.loss
            else GameTally.tie
        | _, _ => GameTally.skip

/-- The competition part of the declarative tally. -/
def tallyComp (oppId : Int) (comp : JValue) : GameTally :=
  match comp with
  | .obj co =>
      match pyOr (jget co "competitors") (JValue.arr []) with
      | .arr cs =>
          if cs.length < 2 then GameTally.skip
          else
            let pr := findSidesPure (toString oppId) cs (none, none)
            sideTallySpec pr.1 pr.2
      | _ => GameTally.skip
  | _ => GameTally.skip

/-- The declarative tally of one schedule event: only events with a
parseable date strictly before the given game's date (no completion
check), with at least two competitors and both sides identified,
contribute, via `sideTallySpec`. -/
def tallyOf (iso : String → Option Int) (oppId : Int) (g : Int) (ev : JValue) : GameTally :=
  match ev with
  | .obj eo =>
      match parseIso iso (pyStr (pyOr (jget eo "date") (JValue.str ""))) with
      | none => GameTally.skip
      | some d =>
          if d ≥ g then GameTally.skip
          else tallyComp oppId (compOf eo)
  | _ => GameTally.skip

/-- Fold of the declarative tallies over a list of events. -/
def tallyCounts (iso : String → Option Int) (oppId : Int) (g : Int)
    (evs : List JValue) : Int × Int × Int :=
  evs.foldl (fun acc ev => applyTally acc (tallyOf iso oppId g ev)) (0, 0, 0)

/-- Well-formedness of one competitor: its `team` field is a dict or
falsy (a truthy non-dict `team` makes the Python side scan raise). -/
def compTeamWF (c : JValue) : Bool :=
  match c with
  | .obj cobj => ((pyOr (jget cobj "team") (JValue.obj [])) matches JValue.obj _)
  | _ => true

/-- Well-formedness of one competition object: every competitor
satisfies `compTeamWF`. -/
def compWF (comp : JValue) : Bool :=
  match comp with
  | .obj co =>
      match pyOr (jget co "competitors") (JValue.arr []) with
      | .arr cs => cs.all compTeamWF
      | _ => true
  | _ => true

/-- Well-formedness of one event for the pregame-record refinement:
every competitor of its competition satisfies `compTeamWF`. -/
def evTeamsWF (ev : JValue) : Bool :=
  match ev with
  | .obj eo => compWF (compOf eo)
  | _ => true

/-! ## Generic lemmas: stable descending sort and first maxima -/

theorem firstMax_ne_nil (key : α → Int) (l : List α) (h : l ≠ []) :
    ∃ m, firstMax key l = some m := by
  cases l with
  | nil => exact absurd rfl h
  | cons a t =>
      simp only [firstMax]
      cases firstMax key t with
      | none => exact ⟨a, rfl⟩
      | some m =>
          by_cases hk : key m > key a
          · exact ⟨m, by simp [hk]⟩
          · exact ⟨a, by simp [hk]⟩

theorem insertDesc_head (key : α → Int) (a : α) (l : List α) :
    (insertDesc key a l).head? =
      match l.head? with
      | none => some a
      | some b => if key b ≤ key a then some a else some b := by
  cases l with
  | nil => rfl
  | cons b t =>
      by_cases hk : key b ≤ key a
      · simp [insertDesc, hk]
      · simp [insertDesc, hk]

theorem sortDesc_head (key : α → Int) (l : List α) :
    (sortDesc key l).head? = firstMax key l := by
  induction l with
  | nil => rfl
  | cons a t ih =>
      simp only [sortDesc, firstMax, insertDesc_head, ih]
      cases firstMax key t with
      | none => rfl
      | some m =>
          by_cases hk : key m ≤ key a
          · have hk2 : ¬ key m > key a := by omega
            simp [hk, hk2]
          · have hk2 : key m > key a := by omega
            simp [hk, hk2]

theorem firstMax_mem (key : α → Int) (l : List α) (m : α)
    (h : firstMax key l = some m) : m ∈ l := by
  induction l with
  | nil => simp [firstMax] at h
  | cons a t ih =>
      simp only [firstMax] at h
      cases h' : firstMax key t with
      | none =>
          rw [h'] at h
          simp at h
          subst h
          exact List.mem_cons_self a t
      | some m' =>
          rw [h'] at h
          by_cases hk : key m' > key a
          · simp [hk] at h
            subst h
            exact List.mem_cons_of_mem _ (ih h')
          · simp [hk] at h
            subst h
            exact List.mem_cons_self a t

theorem firstMax_isMax (key : α → Int) (l : List α) :
    ∀ m, firstMax key l = some m → ∀ d ∈ l, key d ≤ key m := by
  induction l with
  | nil => intro m h; simp [firstMax] at h
  | cons a t ih =>
      intro m h
      simp only [firstMax] at h
      cases h' : firstMax key t with
      | none =>
          rw [h'] at h
          have hm : a = m := Option.some.inj h
          have ht : t = [] := by
            cases t with
            | nil => rfl
            | cons x xs =>
                exfalso
                rcases firstMax_ne_nil key (x :: xs) (by simp) with ⟨w, hw⟩
                rw [hw] at h'
                exact absurd h' (by simp)
          subst ht
          intro d hd
          simp at hd
          subst hd
          rw [hm]
      | some m' =>
          rw [h'] at h
          have h2 : (if key m' > key a then some m' else some a) = some m := h
          by_cases hk : key m' > key a
          · rw [if_pos hk] at h2
            have hm : m' = m := Option.some.inj h2
            intro d hd
            rcases List.mem_cons.mp hd with rfl | hdt
            · rw [← hm]; omega
            · exact hm ▸ ih m' h' d hdt
          · rw [if_neg hk] at h2
            have hm : a = m := Option.some.inj h2
            intro d hd
            rcases List.mem_cons.mp hd with rfl | hdt
            · rw [hm]
            · calc key d ≤ key m' := ih m' h' d hdt
                _ ≤ key a := by omega
                _ = key m := by rw [hm]

theorem firstMax_head_eq (key : α → Int) (a : α) (l : List α) (c : α)
    (h : firstMax key (a :: l) = some c) (hkey : key c = key a) : c = a := by
  simp only [firstMax] at h
  cases h' : firstMax key l with
  | none =>
      rw [h'] at h
      exact (Option.some.inj h).symm
  | some m =>
      rw [h'] at h
      have h2 : (if key m > key a then some m else some a) = some c := h
      by_cases hk : key m > key a
      · rw [if_pos hk] at h2
        have hm : m = c := Option.some.inj h2
        rw [hm] at hk
        omega
      · rw [if_neg hk] at h2
        exact (Option.some.inj h2).symm

theorem firstMax_cons_cases (key : α → Int) (a : α) (l : List α) (c : α)
    (h : firstMax key (a :: l) = some c) :
    c = a ∨ (firstMax key l = some c ∧ key a < key c) := by
  simp only [firstMax] at h
  cases h' : firstMax key l with
  | none =>
      rw [h'] at h
      exact Or.inl (Option.some.inj h).symm
  | some m =>
      rw [h'] at h
      have h2 : (if key m > key a then some m else some a) = some c := h
      by_cases hk : key m > key a
      · rw [if_pos hk] at h2
        have hm : m = c := Option.some.inj h2
        subst hm
        exact Or.inr ⟨rfl, hk⟩
      · rw [if_neg hk] at h2
        exact Or.inl (Option.some.inj h2).symm

/-! ## Claim C1 — AUTO poll selection -/

theorem autoCandidates_nil_of_pollsOf_none (iso : String → Option Int) (data : JObj)
    (hp : pollsOf data = none) : autoCandidates iso data = [] := by
  simp [autoCandidates, cfpHead, apHead, coachesHead, cfpSorted, apSorted, coachesSorted, hp,
    sortDesc]

theorem pickPoll_unnamed_eq_firstMax (iso : String → Option Int) (data : JObj)
    (choice : String) (hc1 : choice ≠ "cfp") (hc2 : choice ≠ "ap")
    (hc3 : choice ≠ "coaches") (hne : autoCandidates iso data ≠ []) :
    pickPoll iso data choice = firstMax (parseDate iso) (autoCandidates iso data) := by
  unfold pickPoll
  cases hp : pollsOf data with
  | none => exact absurd (autoCandidates_nil_of_pollsOf_none iso data hp) hne
  | some polls =>
      simp only [if_neg hc1, if_neg hc2, if_neg hc3]
      cases hcands : autoCandidates iso data with
      | nil => exact absurd hcands hne
      | cons c cs => simp only [sortDesc_head]

/-- C1.  AUTO poll selection: when the document's poll list contains
classified polls (equivalently, the candidate list "most recent poll
per known kind, in the order CFP, AP, Coaches" is non-empty),
`_pick_poll(data, "auto")` returns a candidate whose timestamp is
maximal among the candidates; at an equal timestamp the CFP candidate
beats everything, and when the CFP candidate's timestamp is strictly
below the winner's, the AP candidate beats the Coaches candidate at
an equal timestamp.  In particular three same-timestamp AP, Coaches
and CFP polls make AUTO return the CFP poll. -/
theorem auto_pick_most_recent_with_kind_priority (iso : String → Option Int)
    (data : JObj) (hne : autoCandidates iso data ≠ []) :
    ∃ c, pickPoll iso data "auto" = some c
      ∧ c ∈ autoCandidates iso data
      ∧ (∀ d ∈ autoCandidates iso data, parseDate iso d ≤ parseDate iso c)
      ∧ (∀ p, cfpHead iso data = some p → parseDate iso p = parseDate iso c → c = p)
      ∧ ((∀ q, cfpHead iso data = some q → parseDate iso q < parseDate iso c) →
          ∀ p, apHead iso data = some p → parseDate iso p = parseDate iso c → c = p) := by
  rcases firstMax_ne_nil (parseDate iso) _ hne with ⟨c, hc⟩
  refine ⟨c, ?_, firstMax_mem _ _ _ hc, firstMax_isMax _ _ _ hc, ?_, ?_⟩
  · rw [pickPoll_unnamed_eq_firstMax iso data "auto" (by decide) (by decide) (by decide) hne, hc]
  · intro p hp hpe
    have hshape : autoCandidates iso data =
        p :: ((apHead iso data).toList ++ (coachesHead iso data).toList) := by
      simp [autoCandidates, hp]
    rw [hshape] at hc
    exact firstMax_head_eq _ _ _ _ hc hpe.symm
  · intro hstrict p hap hpe
    cases hq : cfpHead iso data with
    | none =>
        have hshape : autoCandidates iso data = p :: (coachesHead iso data).toList := by
          simp [autoCandidates, hq, hap]
        rw [hshape] at hc
        exact firstMax_head_eq _ _ _ _ hc hpe.symm
    | some q =>
        have hlt : parseDate iso q < parseDate iso c := hstrict q hq
        have hshape : autoCandidates iso data =
            q :: (p :: (coachesHead iso data).toList) := by
          simp [autoCandidates, hq, hap]
        rw [hshape] at hc
        rcases firstMax_cons_cases _ _ _ _ hc with rfl | ⟨hc2, _⟩
        · omega
        · exact firstMax_head_eq _ _ _ _ hc2 hpe.symm

/-- The concrete instant parser of the C1 witness scenario. -/
def isoW : String → Option Int := fun s => if s == "d" then some 100 else none

/-- An AP-classified poll dated `d`. -/
def apPollW : JObj := [("type", JValue.str "ap"), ("name", JValue.str "AP Top 25"),
  ("date", JValue.str "d")]

/-- A Coaches-classified poll dated `d`. -/
def coachesPollW : JObj := [("name", JValue.str "Coaches Poll"), ("date", JValue.str "d")]

/-- A CFP-classified poll dated `d`. -/
def cfpPollW : JObj :=
  [("name", JValue.str "playoff selection committee rankings"), ("date", JValue.str "d")]

/-- A document holding the three same-timestamp polls. -/
def docW : JObj :=
  [("rankings", JValue.arr [JValue.obj apPollW, JValue.obj coachesPollW, JValue.obj cfpPollW])]

theorem auto_pick_most_recent_with_kind_priority_witness :
    autoCandidates isoW docW ≠ []
      ∧ (∃ c, pickPoll isoW docW "auto" = some c
          ∧ c ∈ autoCandidates isoW docW
          ∧ (∀ d ∈ autoCandidates isoW docW, parseDate isoW d ≤ parseDate isoW c)
          ∧ (∀ p, cfpHead isoW docW = some p → parseDate isoW p = parseDate isoW c → c = p)
          ∧ ((∀ q, cfpHead isoW docW = some q → parseDate isoW q < parseDate isoW c) →
              ∀ p, apHead isoW docW = some p → parseDate isoW p = parseDate isoW c → c = p))
      ∧ pickPoll isoW docW "auto" = some cfpPollW := by
  have hne : autoCandidates isoW docW ≠ [] := by
    rw [show autoCandidates isoW docW = [cfpPollW, apPollW, coachesPollW] from rfl]
    exact List.cons_ne_nil _ _
  exact ⟨hne, auto_pick_most_recent_with_kind_priority isoW docW hne, rfl⟩

/-! ## Claim C9 — unknown poll choices silently run AUTO -/

/-- C9.  Any poll-choice string other than `"ap"`, `"coaches"` and
`"cfp"` (not only `"auto"`) makes `_pick_poll` run the AUTO selection
algorithm instead of rejecting the unknown choice. -/
theorem pickPoll_unknown_choice_runs_auto (iso : String → Option Int) (data : JObj)
    (choice : String) (h1 : choice ≠ "ap") (h2 : choice ≠ "coaches")
    (h3 : choice ≠ "cfp") :
    pickPoll iso data choice = pickPoll iso data "auto" := by
  unfold pickPoll
  cases pollsOf data with
  | none => rfl
  | some polls =>
      simp only [if_neg h1, if_neg h2, if_neg h3]
      have ha1 : ("auto" : String) ≠ "ap" := by decide
      have ha2 : ("auto" : String) ≠ "coaches" := by decide
      have ha3 : ("auto" : String) ≠ "cfp" := by decide
      simp only [if_neg ha1, if_neg ha2, if_neg ha3]

theorem pickPoll_unknown_choice_runs_auto_witness :
    pickPoll isoW docW "bogus choice" = pickPoll isoW docW "auto" :=
  pickPoll_unknown_choice_runs_auto isoW docW "bogus choice" (by decide) (by decide)
    (by decide)

/-! ## Claim C5 — selection errors -/

/-- C5 counterexample.  The error is not kind-specific between AP and
Coaches: on a document with no polls at all, requesting `"ap"` and
requesting `"coaches"` raise the same message. -/
theorem selection_error_same_for_ap_and_coaches :
    selectPoll isoW [] "ap" = Except.error pollMissingMsg
      ∧ selectPoll isoW [] "coaches" = Except.error pollMissingMsg :=
  ⟨rfl, rfl⟩

/-- C5 (amended).  When no poll of the requested kind is found the
render raises a fatal error instead of returning a poll: a dedicated
committee-ranking-window message when the requested kind is `"cfp"`,
and one shared generic message otherwise (so AP and Coaches failures
are indistinguishable). -/
theorem selection_error_fatal_with_dedicated_cfp_message (iso : String → Option Int)
    (data : JObj) (choice : String) (h : pickPoll iso data choice = none) :
    selectPoll iso data choice =
        Except.error (if choice = "cfp" then cfpMissingMsg else pollMissingMsg)
      ∧ cfpMissingMsg ≠ pollMissingMsg
      ∧ strContains cfpMissingMsg "committee ranking window" = true := by
  unfold selectPoll
  rw [h]
  exact ⟨rfl, by decide, by decide⟩

theorem selection_error_fatal_with_dedicated_cfp_message_witness :
    pickPoll isoW [] "cfp" = none
      ∧ (selectPoll isoW [] "cfp" =
            Except.error (if "cfp" = "cfp" then cfpMissingMsg else pollMissingMsg)
          ∧ cfpMissingMsg ≠ pollMissingMsg
          ∧ strContains cfpMissingMsg "committee ranking window" = true) :=
  ⟨rfl, selection_error_fatal_with_dedicated_cfp_message isoW [] "cfp" rfl⟩

/-! ## Claim C2 — logo resolution -/

theorem logoScan_svg (items : List JValue) (s : Option JValue) (a : Int) (u : Option JValue) :
    (logoScan items s a u).1 =
      match lastSvgHref items with
      | some x => some x
      | none => s := by
  induction items generalizing s a u with
  | nil => rfl
  | cons it its ih =>
      cases hh : isHrefItem it with
      | false =>
          have hsi : isSvgItem it = false := by simp [isSvgItem, hh]
          simp only [logoScan, hh, lastSvgHref, hsi]
          simp only [Bool.false_eq_true, if_false]
          rw [ih]
          cases lastSvgHref its <;> simp
      | true =>
          have hud : (if isSvgHref (logoItemHref it) = true
              then some (logoItemHref it) else s) =
                match (if isSvgItem it = true then some (logoItemHref it) else none) with
              | some x => some x
              | none => s := by
            cases hsvg : isSvgHref (logoItemHref it) with
            | false => simp [isSvgItem, hh, hsvg]
            | true => simp [isSvgItem, hh, hsvg]
          simp only [logoScan, hh, lastSvgHref]
          simp only [if_true]
          by_cases harea : areaOf it > a
          · rw [if_pos harea, ih, hud]
            cases lastSvgHref its <;> simp
          · rw [if_neg harea, ih, hud]
            cases lastSvgHref its <;> simp

theorem maxAreaVal_nonneg (items : List JValue) : 0 ≤ maxAreaVal items := by
  induction items with
  | nil => simp [maxAreaVal]
  | cons it its ih =>
      cases hh : isHrefItem it with
      | true =>
          simp only [maxAreaVal, hh, if_true]
          exact le_trans ih (le_max_right _ _)
      | false =>
          simp only [maxAreaVal, hh, Bool.false_eq_true, if_false]
          exact ih

theorem logoScan_best (items : List JValue) (s : Option JValue) (a : Int) (u : Option JValue)
    (ha : 0 ≤ a) :
    (logoScan items s a u).2.2 =
      if maxAreaVal items > a then
        ((items.filter isHrefItem).find? (fun it => areaOf it == maxAreaVal items)).map
          logoItemHref
      else u := by
  induction items generalizing s a u with
  | nil =>
      simp only [logoScan, maxAreaVal, List.filter_nil, List.find?_nil, Option.map_none']
      rw [if_neg (by omega)]
  | cons it its ih =>
      cases hh : isHrefItem it with
      | false =>
          have hf : List.filter isHrefItem (it :: its) = List.filter isHrefItem its :=
            List.filter_cons_of_neg (by simp [hh])
          simp only [logoScan, hh, Bool.false_eq_true, if_false, maxAreaVal, hf]
          exact ih s a u ha
      | true =>
          have hf : List.filter isHrefItem (it :: its) = it :: List.filter isHrefItem its :=
            List.filter_cons_of_pos hh
          simp only [logoScan, hh, if_true, maxAreaVal, hf]
          by_cases harea : areaOf it > a
          · rw [if_pos harea, ih _ _ _ (by omega)]
            by_cases hmx : maxAreaVal its > areaOf it
            · have h1 : max (areaOf it) (maxAreaVal its) = maxAreaVal its := by omega
              rw [h1, if_pos hmx, if_pos (show maxAreaVal its > a by omega),
                List.find?_cons_of_neg _ (by simp only [beq_iff_eq]; omega)]
            · have h1 : max (areaOf it) (maxAreaVal its) = areaOf it := by omega
              rw [h1, if_neg hmx, if_pos harea,
                List.find?_cons_of_pos _ (by simp only [beq_iff_eq]),
                Option.map_some']
          · rw [if_neg harea, ih _ _ _ ha]
            by_cases hmx : maxAreaVal its > a
            · have h1 : max (areaOf it) (maxAreaVal its) = maxAreaVal its := by omega
              rw [h1, if_pos hmx, if_pos hmx,
                List.find?_cons_of_neg _ (by simp only [beq_iff_eq]; omega)]
            · rw [if_neg hmx, if_neg (show ¬ max (areaOf it) (maxAreaVal its) > a by omega)]

theorem maxArea_attained (items : List JValue) (v : Int) (hm : maxAreaVal items = v)
    (hv : v > 0) :
    ∃ w, (items.filter isHrefItem).find? (fun x => areaOf x == v) = some w := by
  induction items with
  | nil => rw [maxAreaVal] at hm; omega
  | cons it its ih =>
      cases hh : isHrefItem it with
      | false =>
          rw [maxAreaVal, hh] at hm
          simp only [Bool.false_eq_true, if_false] at hm
          rw [List.filter_cons_of_neg (by simp [hh])]
          exact ih hm
      | true =>
          rw [maxAreaVal, hh, if_pos rfl] at hm
          rw [List.filter_cons_of_pos hh]
          by_cases hA : areaOf it = v
          · exact ⟨it, List.find?_cons_of_pos _ (by simp only [beq_iff_eq]; omega)⟩
          · have hmx : maxAreaVal its = v := by
              have := maxAreaVal_nonneg its
              omega
            rcases ih hmx with ⟨w, hw⟩
            exact ⟨w, by
              rw [List.find?_cons_of_neg _ (by simp only [beq_iff_eq]; omega)]
              exact hw⟩

theorem logoOf_eq_logoSpec (team : JObj) : logoOf team = logoSpec team := by
  unfold logoOf logoSpec
  cases hl : jget team "logos" with
  | arr items =>
      cases items with
      | nil => rfl
      | cons it its =>
          have hne : (it :: its).isEmpty = false := rfl
          simp only [hne, Bool.false_eq_true, if_false]
          rw [logoScan_svg]
          cases hsvg : lastSvgHref (it :: its) with
          | some x => rfl
          | none =>
              cases hdef : (it :: its).find? isDefaultItem with
              | some d => rfl
              | none =>
                  rw [logoScan_best _ _ _ _ (le_refl 0)]
                  by_cases hmx : maxAreaVal (it :: its) > 0
                  · rw [if_pos hmx]
                    unfold firstMaxAreaHref
                    rcases maxArea_attained (it :: its) _ rfl hmx with ⟨w, hw⟩
                    rw [hw, if_pos hmx]
                    rfl
                  · rw [if_neg hmx, if_neg hmx]
  | null => rfl
  | bool b => rfl
  | num n => rfl
  | str s => rfl
  | obj o => rfl

/-- The team of the C2 scenario: a `rel=["default"]` PNG logo entry
followed by an SVG entry. -/
def svgTeamC2 : JObj :=
  [("logos", JValue.arr
    [JValue.obj [("href", JValue.str "a.png"), ("rel", JValue.arr [JValue.str "default"]),
       ("width", JValue.num 10), ("height", JValue.num 10)],
     JValue.obj [("href", JValue.str "b.svg")]])]

/-- C2 counterexample.  On `svgTeamC2` the row builder resolves the
SVG entry's href, not the `rel`-default entry's href, refuting the
claimed "default first" priority order. -/
theorem logo_default_preempted_by_svg :
    logoOf svgTeamC2 = JValue.str "b.svg"
      ∧ isDefaultItem (JValue.obj [("href", JValue.str "a.png"),
          ("rel", JValue.arr [JValue.str "default"]),
          ("width", JValue.num 10), ("height", JValue.num 10)]) = true
      ∧ logoOf svgTeamC2 ≠ JValue.str "a.png" := by
  refine ⟨rfl, rfl, ?_⟩
  intro h
  have h2 : JValue.str "b.svg" = JValue.str "a.png" :=
    (show logoOf svgTeamC2 = JValue.str "b.svg" from rfl).symm.trans h
  injection h2 with hs
  exact absurd hs (by decide)

/-- C2 (amended).  For every rank entry turned into a row, the row's
logo follows this priority order: the href of the last entry whose
URL (stringified, lowercased) ends in `.svg`; else the href of the
first entry whose `rel` list contains `"default"` (and that has an
href); else the href of the first entry attaining a strictly positive
maximal width*height product; else the first entry's href with any
URL; else the empty string. -/
theorem cfb_logo_resolution (showRecord : Bool) (entry : JObj) (row : CfbRow)
    (h : rowOfEntry showRecord entry = Except.ok row) :
    row.logo = logoSpec (teamOf entry) := by
  unfold rowOfEntry at h
  cases hn : nickOutOf entry with
  | error e => rw [hn] at h; exact absurd h (by simp)
  | ok nk =>
      rw [hn] at h
      have hr : row = ⟨if rankRawOf entry matches JValue.null then JValue.str "--"
          else rankRawOf entry,
        schoolOf (teamOf entry), nk, logoOf (teamOf entry),
        if showRecord then recOf entry else JValue.str "",
        (moveOf entry).1, (moveOf entry).2⟩ := (Except.ok.inj h).symm
      rw [hr]
      exact logoOf_eq_logoSpec (teamOf entry)

theorem cfb_logo_resolution_witness :
    rowOfEntry true [("team", JValue.obj svgTeamC2)]
      = Except.ok ⟨JValue.str "--", JValue.str "Unknown", JValue.str "", JValue.str "b.svg",
          JValue.str "", "", 0⟩
      ∧ (⟨JValue.str "--", JValue.str "Unknown", JValue.str "", JValue.str "b.svg",
          JValue.str "", "", 0⟩ : CfbRow).logo
        = logoSpec (teamOf [("team", JValue.obj svgTeamC2)]) :=
  ⟨rfl, cfb_logo_resolution true _ _ rfl⟩

/-! ## Claim C3 — record-column visibility -/

theorem mapExcept_ok_mem {f : α → Except Unit β} {l : List α} {ys : List β}
    (h : mapExcept f l = Except.ok ys) : ∀ y ∈ ys, ∃ x ∈ l, f x = Except.ok y := by
  induction l generalizing ys with
  | nil =>
      rw [mapExcept] at h
      have : ys = [] := (Except.ok.inj h).symm
      subst this
      intro y hy
      exact absurd hy (by simp)
  | cons x xs ih =>
      rw [mapExcept] at h
      cases hx : f x with
      | error e => rw [hx] at h; exact absurd h (by simp)
      | ok y0 =>
          rw [hx] at h
          cases hrest : mapExcept f xs with
          | error e => rw [hrest] at h; exact absurd h (by simp)
          | ok ys0 =>
              rw [hrest] at h
              have : y0 :: ys0 = ys := Except.ok.inj h
              subst this
              intro y hy
              rcases List.mem_cons.mp hy with rfl | hy0
              · exact ⟨x, List.mem_cons_self _ _, hx⟩
              · rcases ih hrest y hy0 with ⟨x', hx', hfy⟩
                exact ⟨x', List.mem_cons_of_mem _ hx', hfy⟩

theorem rowOfEntry_record (showRecord : Bool) (entry : JObj) (row : CfbRow)
    (h : rowOfEntry showRecord entry = Except.ok row) :
    row.record = if showRecord then recOf entry else JValue.str "" := by
  unfold rowOfEntry at h
  cases hn : nickOutOf entry with
  | error e => rw [hn] at h; exact absurd h (by simp)
  | ok nk =>
      rw [hn] at h
      have hr := (Except.ok.inj h).symm
      rw [hr]

/-- C3 (amended).  A row's record is the
`recordSummary`/`record`/empty fallback whenever the show-record flag
is true — for every `top_n`, including 21 — and is the empty string
whenever the flag is false.  `top_n` never forces the record column
empty. -/
theorem cfb_record_follows_flag_only (showRecord : Bool) (topN : Nat) (ranks : List JObj)
    (rows : List CfbRow) (h : buildRows showRecord topN ranks = Except.ok rows) :
    ∀ row ∈ rows,
      (showRecord = false → row.record = JValue.str "")
        ∧ (showRecord = true → ∃ e ∈ ranks.take topN, row.record = recOf e) := by
  intro row hrow
  rcases mapExcept_ok_mem h row hrow with ⟨e, he, hfe⟩
  have hrec := rowOfEntry_record showRecord e row hfe
  constructor
  · intro hsr
    rw [hsr] at hrec
    simpa using hrec
  · intro hsr
    rw [hsr] at hrec
    exact ⟨e, he, by simpa using hrec⟩

/-- C3 counterexample.  `top_n = 21` with `show_record = true`: the
produced row's record is the entry's `recordSummary` (`"5-0"`), not
the empty string the claim requires. -/
theorem record_not_forced_empty_at_topn_21 :
    buildRows true 21 [[("recordSummary", JValue.str "5-0")]]
      = Except.ok [⟨JValue.str "--", JValue.str "Unknown", JValue.str "", JValue.str "",
          JValue.str "5-0", "", 0⟩]
      ∧ JValue.str "5-0" ≠ JValue.str "" := by
  refine ⟨rfl, ?_⟩
  intro h
  injection h with hs
  exact absurd hs (by decide)

theorem cfb_record_follows_flag_only_witness :
    buildRows true 21 [[("recordSummary", JValue.str "5-0")]]
        = Except.ok [⟨JValue.str "--", JValue.str "Unknown", JValue.str "", JValue.str "",
            JValue.str "5-0", "", 0⟩]
      ∧ ∀ row ∈ [(⟨JValue.str "--", JValue.str "Unknown", JValue.str "", JValue.str "",
            JValue.str "5-0", "", 0⟩ : CfbRow)],
          (true = false → row.record = JValue.str "")
            ∧ (true = true →
                ∃ e ∈ ([[("recordSummary", JValue.str "5-0")]] : List JObj).take 21,
                  row.record = recOf e) :=
  ⟨rfl, cfb_record_follows_flag_only true 21 _ _ rfl⟩

/-! ## Claim C4 — cache/fetch contract -/

/-- C4.  Both fetchers obey the TTL contract.  With `ttl <= 0` the
GET always happens and nothing is stored.  With `ttl > 0`: a stored
entry strictly younger than `ttl` is returned without a GET and
without touching the cache; otherwise (stale entry, or no entry) the
GET happens, `(key, now, payload)` is stored, and the payload is
returned.  In particular an entry stored at `t0` with ttl `T > 0` is
served from cache whenever `now - t0 < T` and re-fetched whenever
`now - t0 >= T`. -/
theorem cache_fetch_contract (ttl now : Int) (net : JValue) :
    (∀ c : CfbCache, ttl ≤ 0 → getRankingsCached ttl now c net = (net, c, true))
  ∧ (∀ t0 d, 0 < ttl → now - t0 < ttl →
      getRankingsCached ttl now ⟨t0, some d⟩ net = (d, ⟨t0, some d⟩, false))
  ∧ (∀ t0 d, 0 < ttl → now - t0 ≥ ttl →
      getRankingsCached ttl now ⟨t0, some d⟩ net = (net, ⟨now, some net⟩, true))
  ∧ (∀ t0, 0 < ttl → getRankingsCached ttl now ⟨t0, (none : Option JValue)⟩ net
      = (net, ⟨now, some net⟩, true))
  ∧ (∀ (url : String) (c : NdCache), ttl ≤ 0 → fetchJsonCached url ttl now c net
      = (net, c, true))
  ∧ (∀ url c d, 0 < ttl → lookupStr c.data url = some d →
      now - (lookupStr c.ts url).getD 0 < ttl →
      fetchJsonCached url ttl now c net = (d, c, false))
  ∧ (∀ url c, 0 < ttl → lookupStr c.data url ≠ none →
      now - (lookupStr c.ts url).getD 0 ≥ ttl →
      fetchJsonCached url ttl now c net
        = (net, ⟨assocInsert c.ts url now, assocInsert c.data url net⟩, true))
  ∧ (∀ url c, 0 < ttl → lookupStr c.data url = none →
      fetchJsonCached url ttl now c net
        = (net, ⟨assocInsert c.ts url now, assocInsert c.data url net⟩, true)) := by
  refine ⟨?_, ?_, ?_, ?_, ?_, ?_, ?_, ?_⟩
  · intro c httl
    unfold getRankingsCached
    rw [if_neg (fun h => by omega), if_neg (by omega)]
  · intro t0 d h1 h2
    unfold getRankingsCached
    rw [if_pos ⟨h1, rfl, h2⟩]
    rfl
  · intro t0 d h1 h2
    unfold getRankingsCached
    rw [if_neg (fun h => absurd (show now - t0 < ttl from h.2.2) (by omega)), if_pos h1]
  · intro t0 h1
    unfold getRankingsCached
    rw [if_neg (fun h => by simp at h), if_pos h1]
  · intro url c httl
    unfold fetchJsonCached
    rw [if_neg (fun h => by omega), if_neg (by omega)]
  · intro url c d h1 hlook h2
    unfold fetchJsonCached
    rw [if_pos ⟨h1, by rw [hlook]; rfl, h2⟩, hlook]
    rfl
  · intro url c h1 hlook h2
    unfold fetchJsonCached
    rw [if_neg (fun h => by omega), if_pos h1]
  · intro url c h1 hlook
    unfold fetchJsonCached
    rw [if_neg (fun h => by rw [hlook] at h; simp at h), if_pos h1]

theorem cache_fetch_contract_witness :
    getRankingsCached 0 100 ⟨0, some (JValue.str "P")⟩ (JValue.str "Q")
        = (JValue.str "Q", ⟨0, some (JValue.str "P")⟩, true)
      ∧ getRankingsCached 60 100 ⟨50, some (JValue.str "P")⟩ (JValue.str "Q")
        = (JValue.str "P", ⟨50, some (JValue.str "P")⟩, false)
      ∧ getRankingsCached 60 100 ⟨40, some (JValue.str "P")⟩ (JValue.str "Q")
        = (JValue.str "Q", ⟨100, some (JValue.str "Q")⟩, true)
      ∧ fetchJsonCached "u" 60 100 ⟨[("u", 50)], [("u", JValue.str "P")]⟩ (JValue.str "Q")
        = (JValue.str "P", ⟨[("u", 50)], [("u", JValue.str "P")]⟩, false) :=
  ⟨(cache_fetch_contract 0 100 (JValue.str "Q")).1 _ (by omega),
    (cache_fetch_contract 60 100 (JValue.str "Q")).2.1 50 _ (by omega) (by omega),
    (cache_fetch_contract 60 100 (JValue.str "Q")).2.2.1 40 _ (by omega) (by omega),
    (cache_fetch_contract 60 100 (JValue.str "Q")).2.2.2.2.2.1 "u" _ _ (by omega) rfl
      (by decide)⟩

/-! ## Claim C6 — date-format fallback -/

/-- C6 counterexample.  An unparseable non-empty schedule date does
not render as `"TBD"`: `_format_game_datetime` returns the first ten
characters of the raw string (here a malformed 20-character ISO-like
string). -/
theorem game_date_fallback_is_truncation_not_tbd :
    formatGameDatetime (fun _ _ => none) "2025-13-45T99:99:99Z" true = "2025-13-45"
      ∧ "2025-13-45" ≠ "TBD" :=
  ⟨rfl, by decide⟩

/-- C6 (amended).  `_format_poll_date` returns the original raw
string unmodified whenever the stdlib parse/format raises, and never
raises itself; `_format_game_datetime` renders `"TBD"` only for an
absent (empty) date, and renders the first ten characters of the raw
string when the parse raises. -/
theorem date_format_fallback :
    (∀ (fmt : String → Option String) (poll : JObj) (ds : String),
        pollDateStrOf poll = some ds → fmt ds = none → formatPollDate fmt poll = ds)
      ∧ (∀ (fg : String → Bool → Option String) (showTime : Bool),
          formatGameDatetime fg "" showTime = "TBD")
      ∧ (∀ (fg : String → Bool → Option String) (s : String) (showTime : Bool),
          s ≠ "" → fg s showTime = none →
          formatGameDatetime fg s showTime = String.mk (s.data.take 10)) := by
  refine ⟨?_, ?_, ?_⟩
  · intro fmt poll ds hds hfmt
    unfold formatPollDate
    rw [hds]
    show (fmt ds).getD ds = ds
    rw [hfmt]
    rfl
  · intro fg showTime
    rfl
  · intro fg s showTime hs hfg
    unfold formatGameDatetime
    rw [if_neg (by simpa using hs), hfg]

theorem date_format_fallback_witness :
    (pollDateStrOf [("date", JValue.str "not-a-date")] = some "not-a-date"
        ∧ (fun _ => (none : Option String)) "not-a-date" = none
        ∧ formatPollDate (fun _ => none) [("date", JValue.str "not-a-date")] = "not-a-date")
      ∧ formatGameDatetime (fun _ _ => none) "" true = "TBD"
      ∧ ("2025-13-45T99:99:99Z" : String) ≠ ""
      ∧ formatGameDatetime (fun _ _ => none) "2025-13-45T99:99:99Z" true
          = String.mk ("2025-13-45T99:99:99Z".data.take 10) :=
  ⟨⟨rfl, rfl,
      date_format_fallback.1 (fun _ => none) [("date", JValue.str "not-a-date")]
        "not-a-date" rfl rfl⟩,
    date_format_fallback.2.1 (fun _ _ => none) true,
    by decide,
    date_format_fallback.2.2 (fun _ _ => none) "2025-13-45T99:99:99Z" true (by decide) rfl⟩

/-! ## Claim C8 — enrichment failure degradation -/

/-- C8.  The code evaluated at the failing input: when every fetch of
the opponent's schedule raises, `_fetch_schedule_for_year` degrades
to `{"events": []}` and `_opponent_pregame_record` returns the string
`"0-0"` — not the empty string that the code's own comment ("safe to
return empty if any issue") and the spec promise. -/
theorem pregame_record_on_total_fetch_failure :
    oppPregameRecord isoW (fun _ => Except.error ()) 5 2025 (some 100)
        = Except.ok "0-0"
      ∧ fetchScheduleForYear (fun _ => Except.error ()) 5 2025
        = JValue.obj [("events", JValue.arr [])]
      ∧ ("0-0" : String) ≠ "" :=
  ⟨rfl, rfl, by decide⟩

/-! ## Claim C7 — opponent pregame record -/

/-- The instant parser of the C7 scenario. -/
def isoC7 : String → Option Int := fun s => if s == "d1" then some 50 else none

/-- The opponent's lone already-played game: the opponent (team 5)
lost 10-20 by score, but its `winner` flag is (inconsistently) set to
`true`; no completion markers are present. -/
def eventC7 : JValue :=
  JValue.obj [("date", JValue.str "d1"),
    ("competitions", JValue.arr [JValue.obj [("competitors", JValue.arr
      [JValue.obj [("team", JValue.obj [("id", JValue.str "5")]),
         ("score", JValue.num 10), ("winner", JValue.bool true)],
       JValue.obj [("team", JValue.obj [("id", JValue.str "6")]),
         ("score", JValue.num 20)]])]])]

/-- A fetcher serving the opponent's schedule for every URL. -/
def fetchC7 : String → Except Unit JValue :=
  fun _ => Except.ok (JValue.obj [("events", JValue.arr [eventC7])])

/-- C7 counterexample.  With both scores available (10-20, a loss by
score comparison) and a boolean winner flag `true`, the code counts a
win: the flag takes precedence even when scores are available, and no
completed-game check is made (the event carries no completion
marker), so the record is `"1-0"` instead of the claimed `"0-1"`. -/
theorem pregame_record_winner_flag_beats_scores :
    oppPregameRecord isoC7 fetchC7 5 2025 (some 100) = Except.ok "1-0"
      ∧ ("1-0" : String) ≠ "0-1" :=
  ⟨rfl, by decide⟩

theorem findSides_eq_pure (tid : String) (cs : List JValue)
    (acc : Option JObj × Option JObj) (hwf : cs.all compTeamWF = true) :
    findSides tid cs acc = Except.ok (findSidesPure tid cs acc) := by
  induction cs generalizing acc with
  | nil => rfl
  | cons c rest ih =>
      rw [List.all_cons, Bool.and_eq_true] at hwf
      cases c with
      | obj cobj =>
          have hwfc := hwf.1
          simp only [compTeamWF] at hwfc
          cases hteam : pyOr (jget cobj "team") (JValue.obj []) with
          | obj tobj =>
              simp only [findSides, findSidesPure, hteam, jvObjGet]
              cases hid : (pyStr (jget tobj "id") == tid) with
              | true =>
                  simp only [hid, if_true]
                  exact ih _ hwf.2
              | false =>
                  simp only [hid, Bool.false_eq_true, if_false]
                  exact ih _ hwf.2
          | null => rw [hteam] at hwfc; simp at hwfc
          | bool b => rw [hteam] at hwfc; simp at hwfc
          | num n => rw [hteam] at hwfc; simp at hwfc
          | str s => rw [hteam] at hwfc; simp at hwfc
          | arr xs => rw [hteam] at hwfc; simp at hwfc
      | null => exact ih _ hwf.2
      | bool b => exact ih _ hwf.2
      | num n => exact ih _ hwf.2
      | str s => exact ih _ hwf.2
      | arr xs => exact ih _ hwf.2

theorem sideTallyCode_eq_spec (my? oth? : Option JObj) :
    sideTallyCode my? oth? = sideTallySpec my? oth? := by
  unfold sideTallyCode sideTallySpec
  by_cases ht : !(sideTruthy my? && sideTruthy oth?)
  · rw [if_pos ht, if_pos ht]
  · rw [if_neg ht, if_neg ht]
    cases hms : safeInt (jget (my?.getD []) "score") <;>
      cases hos : safeInt (jget (oth?.getD []) "score") <;>
        cases hwin : jget (my?.getD []) "winner" <;>
          simp only [hms, hos, hwin]

theorem countEventComp_eq_tally (oppId : Int) (acc : Int × Int × Int) (comp : JValue)
    (hwf : compWF comp = true) :
    countEventComp oppId acc comp = Except.ok (applyTally acc (tallyComp oppId comp)) := by
  cases comp with
  | obj co =>
      simp only [countEventComp, tallyComp]
      cases hcs : pyOr (jget co "competitors") (JValue.arr []) with
      | arr cs =>
          by_cases hlen : cs.length < 2
          · simp only [hlen, if_true]
            rfl
          · simp only [hlen, if_false]
            have hwf2 : cs.all compTeamWF = true := by
              simp only [compWF, hcs] at hwf
              exact hwf
            rw [findSides_eq_pure (toString oppId) cs (none, none) hwf2]
            simp only [sideTallyCode_eq_spec]
      | null => rfl
      | bool b => rfl
      | num n => rfl
      | str st => rfl
      | obj o => rfl
  | null => rfl
  | bool b => rfl
  | num n => rfl
  | str st => rfl
  | arr xs => rfl

theorem countEvent_eq_tally (iso : String → Option Int) (oppId : Int) (g : Int)
    (acc : Int × Int × Int) (ev : JValue) (hwf : evTeamsWF ev = true) :
    countEvent iso oppId g acc ev = Except.ok (applyTally acc (tallyOf iso oppId g ev)) := by
  cases ev with
  | obj eo =>
      simp only [countEvent, tallyOf]
      cases hpi : parseIso iso (pyStr (pyOr (jget eo "date") (JValue.str ""))) with
      | none => rfl
      | some d =>
          by_cases hd : d ≥ g
          · simp only [hd, if_true]
            rfl
          · simp only [hd, if_false]
            exact countEventComp_eq_tally oppId acc (compOf eo)
              (by simpa only [evTeamsWF] using hwf)
  | null => rfl
  | bool b => rfl
  | num n => rfl
  | str st => rfl
  | arr xs => rfl

theorem countEvents_eq_tally (iso : String → Option Int) (oppId : Int) (g : Int)
    (evs : List JValue) (acc : Int × Int × Int) (hwf : evs.all evTeamsWF = true) :
    countEvents iso oppId g evs acc =
      Except.ok (evs.foldl (fun a ev => applyTally a (tallyOf iso oppId g ev)) acc) := by
  induction evs generalizing acc with
  | nil => rfl
  | cons e es ih =>
      rw [List.all_cons, Bool.and_eq_true] at hwf
      rw [countEvents, countEvent_eq_tally iso oppId g acc e hwf.1, List.foldl_cons]
      exact ih _ hwf.2

/-- C7 (amended).  When the opponent id is non-zero, the game instant
parsed, and the fetched schedule is a dict whose `events` is a list
of well-formed events, the computed record equals the fold of the
declarative per-game tallies over those events: only games with a
parseable date strictly before the given game's date count (no
completed-game check), a boolean winner flag decides win/loss
whenever it is present — even when both scores are available — and
score comparison is used only when the flag is absent; scoreless
flagless games are skipped; the result is formatted "W-L", or
"W-L-T" when any tie was counted. -/
theorem nd_opp_pregame_record_refines_tally (iso : String → Option Int)
    (fetch : String → Except Unit JValue) (oppId year g : Int) (schedO : JObj)
    (evs : List JValue) (h0 : oppId ≠ 0)
    (h1 : fetchScheduleForYear fetch oppId year = JValue.obj schedO)
    (h2 : jget schedO "events" = JValue.arr evs)
    (h3 : evs.all evTeamsWF = true) :
    oppPregameRecord iso fetch oppId year (some g) =
      Except.ok (formatRecord (tallyCounts iso oppId g evs)) := by
  have hbeq : (oppId == 0) = false := beq_eq_false_iff_ne.mpr h0
  unfold oppPregameRecord
  simp only [hbeq, Bool.false_eq_true, if_false, h1, jvObjGet, h2]
  cases evs with
  | nil => rfl
  | cons e es =>
      have hpy : pyOr (JValue.arr (e :: es)) (JValue.arr []) = JValue.arr (e :: es) := rfl
      simp only [hpy]
      rw [countEvents_eq_tally iso oppId g (e :: es) (0, 0, 0) h3]
      rfl

theorem nd_opp_pregame_record_refines_tally_witness :
    (5 : Int) ≠ 0
      ∧ fetchScheduleForYear fetchC7 5 2025 = JValue.obj [("events", JValue.arr [eventC7])]
      ∧ jget [("events", JValue.arr [eventC7])] "events" = JValue.arr [eventC7]
      ∧ [eventC7].all evTeamsWF = true
      ∧ oppPregameRecord isoC7 fetchC7 5 2025 (some 100) =
          Except.ok (formatRecord (tallyCounts isoC7 5 100 [eventC7])) :=
  ⟨by decide, rfl, rfl, rfl,
    nd_opp_pregame_record_refines_tally isoC7 fetchC7 5 2025 100 _ _ (by decide) rfl rfl rfl⟩

/-! ## Claim C10 — opponent ranks stay within 1..25 -/

theorem lookup_filter_bounds (m0 : List (String × Int)) (k : String) (v : Int)
    (h : lookupStr (m0.filter (fun kv => 1 ≤ kv.2 && kv.2 ≤ 25)) k = some v) :
    1 ≤ v ∧ v ≤ 25 := by
  unfold lookupStr at h
  cases hf : (m0.filter (fun kv => 1 ≤ kv.2 && kv.2 ≤ 25)).find? (fun kv => kv.1 == k) with
  | none => rw [hf] at h; simp at h
  | some kv =>
      rw [hf] at h
      have hv : kv.2 = v := by simpa using h
      have hkv := List.mem_of_find?_eq_some hf
      have hp := (List.mem_filter.mp hkv).2
      rw [Bool.and_eq_true] at hp
      constructor
      · rw [← hv]; exact of_decide_eq_true hp.1
      · rw [← hv]; exact of_decide_eq_true hp.2

theorem rankMap_empty_branch (m : List (String × Int)) (lbl upd : String)
    (h : (Except.ok (([] : List (String × Int)), "", "") :
        Except Unit (List (String × Int) × String × String)) = Except.ok (m, lbl, upd))
    (k : String) (v : Int) (hlook : lookupStr m k = some v) : 1 ≤ v ∧ v ≤ 25 := by
  have hm : ([] : List (String × Int)) = m := congrArg Prod.fst (Except.ok.inj h)
  rw [← hm] at hlook
  simp [lookupStr] at hlook

theorem rankMap_filter_branch (m0 m : List (String × Int)) (l2 u2 lbl upd : String)
    (h : (Except.ok (m0.filter (fun kv => 1 ≤ kv.2 && kv.2 ≤ 25), l2, u2) :
        Except Unit (List (String × Int) × String × String)) = Except.ok (m, lbl, upd))
    (k : String) (v : Int) (hlook : lookupStr m k = some v) : 1 ≤ v ∧ v ≤ 25 := by
  have hm : m0.filter (fun kv => 1 ≤ kv.2 && kv.2 ≤ 25) = m :=
    congrArg Prod.fst (Except.ok.inj h)
  rw [← hm] at hlook
  exact lookup_filter_bounds _ k v hlook

theorem getRankMap_bounds (iso : String → Option Int) (fmt : String → Option String)
    (fetch : String → Except Unit JValue) (m : List (String × Int)) (lbl upd : String)
    (h : getRankMap iso fmt fetch = Except.ok (m, lbl, upd)) :
    ∀ k v, lookupStr m k = some v → 1 ≤ v ∧ v ≤ 25 := by
  intro k v hlook
  unfold getRankMap at h
  repeat' split at h
  all_goals
    first
      | exact Except.noConfusion h
      | exact rankMap_empty_branch m lbl upd h k v hlook
      | exact rankMap_filter_branch _ m _ _ lbl upd h k v hlook

theorem oppRankOf_some (rankMap : List (String × Int)) (showRank : Bool) (oppId : String)
    (r : Int) (h : oppRankOf rankMap showRank oppId = some r) :
    lookupStr rankMap oppId = some r := by
  unfold oppRankOf at h
  cases showRank with
  | false => simp at h
  | true => simpa using h

theorem rowOfEventNd_oppRank (iso : String → Option Int)
    (fmtGame : String → Bool → Option String) (fetch : String → Except Unit JValue)
    (rankMap : List (String × Int)) (showRank : Bool) (seasonYear : Int)
    (showTime hideLogo : Bool) (ev : JValue) (row : NdRow)
    (h : rowOfEventNd iso fmtGame fetch rankMap showRank seasonYear showTime hideLogo ev
        = Except.ok (some row)) :
    ∃ oid, row.oppRank = oppRankOf rankMap showRank oid := by
  unfold rowOfEventNd at h
  dsimp only [] at h
  repeat' split at h
  all_goals
    first
      | exact Except.noConfusion h
      | exact Option.noConfusion (Except.ok.inj h)
      | exact ⟨_, (congrArg NdRow.oppRank (Option.some.inj (Except.ok.inj h)).symm)⟩

theorem rowsOfEvents_mem (iso : String → Option Int)
    (fmtGame : String → Bool → Option String) (fetch : String → Except Unit JValue)
    (rankMap : List (String × Int)) (showRank : Bool) (seasonYear : Int)
    (showTime hideLogo : Bool) (evs : List JValue) (rows : List NdRow)
    (h : rowsOfEvents iso fmtGame fetch rankMap showRank seasonYear showTime hideLogo evs
        = Except.ok rows) :
    ∀ row ∈ rows, ∃ ev ∈ evs,
      rowOfEventNd iso fmtGame fetch rankMap showRank seasonYear showTime hideLogo ev
        = Except.ok (some row) := by
  induction evs generalizing rows with
  | nil =>
      rw [rowsOfEvents] at h
      have : ([] : List NdRow) = rows := Except.ok.inj h
      subst this
      intro row hrow
      exact absurd hrow (by simp)
  | cons ev evs ih =>
      rw [rowsOfEvents] at h
      cases h1 : rowOfEventNd iso fmtGame fetch rankMap showRank seasonYear showTime hideLogo ev with
      | error e => rw [h1] at h; exact Except.noConfusion h
      | ok r =>
          rw [h1] at h
          cases h2 : rowsOfEvents iso fmtGame fetch rankMap showRank seasonYear showTime
              hideLogo evs with
          | error e => rw [h2] at h; exact Except.noConfusion h
          | ok rows0 =>
              rw [h2] at h
              cases r with
              | none =>
                  have : rows0 = rows := Except.ok.inj h
                  subst this
                  intro row hrow
                  rcases ih rows0 h2 row hrow with ⟨e2, he2, hrw⟩
                  exact ⟨e2, List.mem_cons_of_mem _ he2, hrw⟩
              | some row0 =>
                  have : row0 :: rows0 = rows := Except.ok.inj h
                  subst this
                  intro row hrow
                  rcases List.mem_cons.mp hrow with rfl | hrow0
                  · exact ⟨ev, List.mem_cons_self _ _, h1⟩
                  · rcases ih rows0 h2 row hrow0 with ⟨e2, he2, hrw⟩
                    exact ⟨e2, List.mem_cons_of_mem _ he2, hrw⟩

/-- C10.  The rank map built by `_get_rank_map` only holds integer
ranks in the closed interval `[1, 25]`; consequently every displayed
opponent rank produced by `ndschedule._build_rows` from that map,
when present, lies in `[1, 25]`, for every input document. -/
theorem nd_opponent_ranks_bounded (iso : String → Option Int)
    (fmtIso : String → Option String) (fmtGame : String → Bool → Option String)
    (fetch : String → Except Unit JValue) (m : List (String × Int)) (lbl upd : String)
    (hm : getRankMap iso fmtIso fetch = Except.ok (m, lbl, upd)) :
    (∀ k v, lookupStr m k = some v → 1 ≤ v ∧ v ≤ 25)
      ∧ (∀ (sched : JObj) (showRank : Bool) (seasonYear : Int) (showTime hideLogo : Bool)
          (rows : List NdRow),
          buildRowsNd iso fmtGame fetch sched m showRank seasonYear showTime hideLogo
              = Except.ok rows →
          ∀ row ∈ rows, ∀ r, row.oppRank = some r → 1 ≤ r ∧ r ≤ 25) := by
  have hbound := getRankMap_bounds iso fmtIso fetch m lbl upd hm
  refine ⟨hbound, ?_⟩
  intro sched showRank seasonYear showTime hideLogo rows hrows row hrow r hr
  unfold buildRowsNd at hrows
  rcases rowsOfEvents_mem iso fmtGame fetch m showRank seasonYear showTime hideLogo _ rows
      hrows row hrow with ⟨ev, _, hev⟩
  rcases rowOfEventNd_oppRank iso fmtGame fetch m showRank seasonYear showTime hideLogo ev
      row hev with ⟨oid, hoid⟩
  rw [hoid] at hr
  exact hbound oid r (oppRankOf_some m showRank oid r hr)

/-- An instant parser that always fails (every date unparseable). -/
def isoN : String → Option Int := fun _ => none

/-- A concrete stdlib date formatter for `_format_iso_datetime`. -/
def fmtIsoN : String → Option String := fun _ => some "U"

/-- A concrete stdlib date formatter for `_format_game_datetime`. -/
def fmtGameN : String → Bool → Option String := fun _ _ => some "Sep 01"

/-- A rankings document with one CFP poll ranking team 5 at 7. -/
def rankDocN : JValue :=
  JValue.obj [("rankings", JValue.arr
    [JValue.obj [("name", JValue.str "playoff selection committee rankings"),
       ("shortName", JValue.str "CFP"), ("date", JValue.str "dd"),
       ("ranks", JValue.arr [JValue.obj [("current", JValue.num 7),
          ("team", JValue.obj [("id", JValue.str "5")])]])]])]

/-- A fetcher serving only the rankings URL. -/
def fetchN : String → Except Unit JValue :=
  fun url => if url == rankingsUrl then Except.ok rankDocN else Except.error ()

/-- A schedule with one game of team 87 against team 5. -/
def schedN : JObj :=
  [("events", JValue.arr
    [JValue.obj [("date", JValue.str "D"),
       ("competitions", JValue.arr [JValue.obj [("competitors", JValue.arr
         [JValue.obj [("team", JValue.obj [("id", JValue.str "87")])],
          JValue.obj [("team", JValue.obj [("id", JValue.str "5")])]])]])]])]

theorem nd_opponent_ranks_bounded_witness :
    getRankMap isoN fmtIsoN fetchN = Except.ok ([("5", 7)], "CFP", "U")
      ∧ buildRowsNd isoN fmtGameN fetchN schedN [("5", 7)] true 2025 true false
        = Except.ok [⟨"Sep 01", "", some 7, JValue.str "", "Unknown", "", "", "", ""⟩]
      ∧ ((1 : Int) ≤ 7 ∧ (7 : Int) ≤ 25) := by
  refine ⟨rfl, rfl, ?_⟩
  exact (nd_opponent_ranks_bounded isoN fmtIsoN fmtGameN fetchN [("5", 7)] "CFP" "U" rfl).2
    schedN true 2025 true false
    [⟨"Sep 01", "", some 7, JValue.str "", "Unknown", "", "", "", ""⟩] rfl
    ⟨"Sep 01", "", some 7, JValue.str "", "Unknown", "", "", "", ""⟩ (by simp) 7 rfl
